import Mathlib

/-!
# Write scopes for JIT code memory (V8, `src/wasm/code-space-access.cc`)

A shallow embedding of `wasm::CodeSpaceWriteScope` (translated from
`src/wasm/code-space-access.cc`), of the global `RwxMemoryWriteScope` and of
the guard `ResetPKUPermissionsForThreadSpawning` (both declared in
`src/common/code-memory-access.h`).

All mutable state touched by the scopes is thread-local, so one thread is a
single record `ThreadState` that is passed through every operation.

* Pointers to `NativeModule` are values of `NativeModulePtr`: `nullptr`, the
  address of the static dummy object returned by `GetDummyNativeModule()`, or
  the address of a real module, identified by a number.
* `DCHECK(c)` is compiled only into debug builds, where a false condition
  aborts. The embedding follows the release build (the check has no effect on
  the state) and records a violated check in the ghost field `dcheck_failed`.
* Calls that leave the translation unit, and every `Set` of the thread-local
  pointer, are recorded in program order in the ghost field `trace`.
* `int` counters are unbounded integers (`Int`); no nesting depth or writer
  count reached in practice comes near the range of `int`.
-/

namespace V8

/-- A value of type `NativeModule*`. -/
inductive NativeModulePtr where
  /-- The null pointer. -/
  | nullptr
  /-- The pointer returned by `GetDummyNativeModule()` (the address of the
  function-local static `dummy_native_module`). -/
  | dummy
  /-- The address of the real `NativeModule` with the given identity. -/
  | module (id : Nat)
  deriving DecidableEq, Repr

/-- `GetDummyNativeModule()`, lines 24-29. -/
def GetDummyNativeModule : NativeModulePtr := .dummy

/-- Calls observed on one thread, in program order. -/
inductive Call where
  /-- A call of `RwxMemoryWriteScope::SetWritable()`. -/
  | RwxSetWritable
  /-- A call of `RwxMemoryWriteScope::SetExecutable()`. -/
  | RwxSetExecutable
  /-- The backend primitive that makes code pages writable was invoked. -/
  | BackendSetWritable
  /-- The backend primitive that makes code pages executable was invoked. -/
  | BackendSetExecutable
  /-- A call `p->AddWriter()`. -/
  | AddWriter (p : NativeModulePtr)
  /-- A call `p->RemoveWriter()`. -/
  | RemoveWriter (p : NativeModulePtr)
  /-- A call `current_native_module.Pointer()->Set(p)`. -/
  | SetCurrent (p : NativeModulePtr)
  deriving DecidableEq, Repr

/-- Build-time and start-up configuration, fixed for the process. -/
structure Config where
  /-- The macro `V8_HAS_PTHREAD_JIT_WRITE_PROTECT`. -/
  V8_HAS_PTHREAD_JIT_WRITE_PROTECT : Bool
  /-- The value of `WasmCodeManager::MemoryProtectionKeysEnabled()`
  (defined in `wasm-code-manager.cc`). -/
  MemoryProtectionKeysEnabled : Bool
  /-- The runtime flag `FLAG_wasm_memory_protection_keys`. -/
  FLAG_wasm_memory_protection_keys : Bool
  /-- The runtime flag `FLAG_wasm_write_protect_code_memory`. -/
  FLAG_wasm_write_protect_code_memory : Bool
  /-- The value of `RwxMemoryWriteScope::IsSupported()`: whether the backend
  primitives change the permissions of the thread or are a pair of no-ops. -/
  IsSupported : Bool
  deriving DecidableEq, Repr

/-- The state of one thread. -/
structure ThreadState where
  /-- The thread-local `current_native_module` (line 18). -/
  current_native_module : NativeModulePtr
  /-- The thread-local `code_space_write_nesting_level_`
  (`code-memory-access.h`, line 85). -/
  code_space_write_nesting_level_ : Int
  /-- The permission of the thread on code pages: `true` when writable. -/
  writable : Bool
  /-- The writer count of every real `NativeModule`. -/
  writers_count_ : Nat → Int
  /-- Ghost: the calls made so far. -/
  trace : List Call
  /-- Ghost: some `DCHECK` was reached with a false condition. -/
  dcheck_failed : Bool

/-- A thread at its start: no region scope open, nesting level zero, code pages
executable ("by default it is assumed that the state is executable"), the
given writer counts. -/
def ThreadState.initial (writers : Nat → Int) : ThreadState :=
  { current_native_module := .nullptr
    code_space_write_nesting_level_ := 0
    writable := false
    writers_count_ := writers
    trace := []
    dcheck_failed := false }

/-- `DCHECK(c)`: no effect on the state; a false condition is recorded. -/
def DCHECK (c : Bool) (s : ThreadState) : ThreadState :=
  if c then s else { s with dcheck_failed := true }

/-! ## Parts that are not under `src/` -/

/-- Modelled from the spec: `NativeModule::AddWriter()` (defined in
`wasm-code-manager.cc`). The spec treats it as a refcount mutator owned by the region: the
writer refcount is "an integer the core increments/decrements through two
operations". A call through a pointer that is not a real module has no writer
count to change; it is only recorded. -/
def AddWriter (p : NativeModulePtr) (s : ThreadState) : ThreadState :=
  { s with
    writers_count_ :=
      match p with
      | .module id => fun r => if r = id then s.writers_count_ r + 1 else s.writers_count_ r
      | _ => s.writers_count_
    trace := s.trace ++ [Call.AddWriter p] }

/-- Modelled from the spec: `NativeModule::RemoveWriter()` (defined in
`wasm-code-manager.cc`), the decrement that mirrors `AddWriter`. -/
def RemoveWriter (p : NativeModulePtr) (s : ThreadState) : ThreadState :=
  { s with
    writers_count_ :=
      match p with
      | .module id => fun r => if r = id then s.writers_count_ r - 1 else s.writers_count_ r
      | _ => s.writers_count_
    trace := s.trace ++ [Call.RemoveWriter p] }

/-- Modelled from the spec: the backend primitive `set_writable()` of §4.1
(its body is in `code-memory-access-inl.h`). It makes the code pages of the
calling thread writable; "on platforms lacking hardware support" it is a
no-op. -/
def Backend.set_writable (cfg : Config) (s : ThreadState) : ThreadState :=
  { s with
    writable := if cfg.IsSupported then true else s.writable
    trace := s.trace ++ [Call.BackendSetWritable] }

/-- Modelled from the spec: the backend primitive `set_executable()` of §4.1
(its body is in `code-memory-access-inl.h`). -/
def Backend.set_executable (cfg : Config) (s : ThreadState) : ThreadState :=
  { s with
    writable := if cfg.IsSupported then false else s.writable
    trace := s.trace ++ [Call.BackendSetExecutable] }

/-- Modelled from the spec: `RwxMemoryWriteScope::SetWritable()` (declared in
`code-memory-access.h`, line 80; its body is in `code-memory-access-inl.h`).
It "implicitly enters the scope" (§4.2, Construct): "Increments the
thread-local nesting counter. If the counter transitions from 0 to 1, invokes
`backend.set_writable()`." The header declares the counter only when one of
the two hardware backends is compiled in (lines 83-87); §4.2 counts on every
backend, and so does this definition. -/
def RwxMemoryWriteScope.SetWritable (cfg : Config) (s : ThreadState) : ThreadState :=
  let s1 := { s with trace := s.trace ++ [Call.RwxSetWritable] }
  let s2 := { s1 with code_space_write_nesting_level_ := s1.code_space_write_nesting_level_ + 1 }
  if s1.code_space_write_nesting_level_ = 0 then Backend.set_writable cfg s2 else s2

/-- Modelled from the spec: `RwxMemoryWriteScope::SetExecutable()` (declared
in `code-memory-access.h`, line 81; its body is in
`code-memory-access-inl.h`). It "implicitly exits the scope" (§4.2,
Destruct): "decrements the nesting counter. If it transitions from 1 to 0,
invokes `backend.set_executable()`." -/
def RwxMemoryWriteScope.SetExecutable (cfg : Config) (s : ThreadState) : ThreadState :=
  let s1 := { s with trace := s.trace ++ [Call.RwxSetExecutable] }
  let s2 := { s1 with code_space_write_nesting_level_ := s1.code_space_write_nesting_level_ - 1 }
  if s2.code_space_write_nesting_level_ = 0 then Backend.set_executable cfg s2 else s2

/-- Modelled from the spec: the constructor
`RwxMemoryWriteScope::RwxMemoryWriteScope(const char* comment)` (declared in
`code-memory-access.h`, line 50). The comment argument is "not used
operationally"; the constructor enters the scope. -/
def RwxMemoryWriteScope.ctor (cfg : Config) (s : ThreadState) : ThreadState :=
  RwxMemoryWriteScope.SetWritable cfg s

/-- Modelled from the spec: the destructor
`RwxMemoryWriteScope::~RwxMemoryWriteScope()` (declared in
`code-memory-access.h`, line 51); it exits the scope. -/
def RwxMemoryWriteScope.dtor (cfg : Config) (s : ThreadState) : ThreadState :=
  RwxMemoryWriteScope.SetExecutable cfg s

/-! ## `CodeSpaceWriteScope`, from `src/wasm/code-space-access.cc` -/

/-- `CodeSpaceWriteScope::SwitchingPerNativeModule()`: line 74 in the pthread
build, lines 98-101 otherwise. -/
def CodeSpaceWriteScope.SwitchingPerNativeModule (cfg : Config) : Bool :=
  if cfg.V8_HAS_PTHREAD_JIT_WRITE_PROTECT then false
  else !cfg.MemoryProtectionKeysEnabled && cfg.FLAG_wasm_write_protect_code_memory

/-- `CodeSpaceWriteScope::SetWritable()`: line 66 in the pthread build, lines
79-85 otherwise. -/
def CodeSpaceWriteScope.SetWritable (cfg : Config) (s : ThreadState) : ThreadState :=
  if cfg.V8_HAS_PTHREAD_JIT_WRITE_PROTECT then RwxMemoryWriteScope.SetWritable cfg s
  else if cfg.MemoryProtectionKeysEnabled then RwxMemoryWriteScope.SetWritable cfg s
  else if cfg.FLAG_wasm_write_protect_code_memory then AddWriter s.current_native_module s
  else s

/-- `CodeSpaceWriteScope::SetExecutable()`: lines 69-71 in the pthread build,
lines 88-95 otherwise. -/
def CodeSpaceWriteScope.SetExecutable (cfg : Config) (s : ThreadState) : ThreadState :=
  if cfg.V8_HAS_PTHREAD_JIT_WRITE_PROTECT then RwxMemoryWriteScope.SetExecutable cfg s
  else if cfg.MemoryProtectionKeysEnabled then
    RwxMemoryWriteScope.SetExecutable cfg (DCHECK cfg.FLAG_wasm_memory_protection_keys s)
  else if cfg.FLAG_wasm_write_protect_code_memory then RemoveWriter s.current_native_module s
  else s

/-- A live `CodeSpaceWriteScope` object: its only data member. -/
structure CodeSpaceWriteScope where
  /-- The member `previous_native_module_`. -/
  previous_native_module_ : NativeModulePtr
  deriving DecidableEq, Repr

/-- The constructor `CodeSpaceWriteScope::CodeSpaceWriteScope(NativeModule*)`,
lines 34-48. Returns the new thread state and the constructed object. -/
def CodeSpaceWriteScope.ctor (cfg : Config) (s : ThreadState) (native_module : Option Nat) :
    ThreadState × CodeSpaceWriteScope :=
  let previous_native_module_ := s.current_native_module
  let s1 := match native_module with
    | none => DCHECK (!CodeSpaceWriteScope.SwitchingPerNativeModule cfg) s
    | some _ => s
  let native_module := match native_module with
    | none => GetDummyNativeModule
    | some id => NativeModulePtr.module id
  if previous_native_module_ = native_module then (s1, ⟨previous_native_module_⟩)
  else
    let s2 := { s1 with
      current_native_module := native_module
      trace := s1.trace ++ [Call.SetCurrent native_module] }
    if previous_native_module_ = .nullptr || CodeSpaceWriteScope.SwitchingPerNativeModule cfg then
      (CodeSpaceWriteScope.SetWritable cfg s2, ⟨previous_native_module_⟩)
    else (s2, ⟨previous_native_module_⟩)

/-- The destructor `CodeSpaceWriteScope::~CodeSpaceWriteScope()`, lines
50-57, run on the object `self`. -/
def CodeSpaceWriteScope.dtor (cfg : Config) (s : ThreadState) (self : CodeSpaceWriteScope) :
    ThreadState :=
  if self.previous_native_module_ = s.current_native_module then s
  else
    let s1 :=
      if self.previous_native_module_ = .nullptr
          || CodeSpaceWriteScope.SwitchingPerNativeModule cfg then
        CodeSpaceWriteScope.SetExecutable cfg s
      else s
    { s1 with
      current_native_module := self.previous_native_module_
      trace := s1.trace ++ [Call.SetCurrent self.previous_native_module_] }

/-- `CodeSpaceWriteScope::IsInScope()`, lines 59-61. -/
def CodeSpaceWriteScope.IsInScope (s : ThreadState) : Bool :=
  s.current_native_module != .nullptr

/-- The region a constructor argument stands for after the rewrite of lines
36-42: the dummy module for `nullptr`. -/
def rewritten : Option Nat → NativeModulePtr
  | none => GetDummyNativeModule
  | some id => .module id

/-! ## Sequences of constructions and destructions on one thread -/

/-- One event on a thread. -/
inductive Op where
  /-- A `CodeSpaceWriteScope` is constructed with the given argument. -/
  | construct (native_module : Option Nat)
  /-- The live scope with index `k`, counted from the most recently
  constructed one (index 0), is destroyed. -/
  | destroy (k : Nat)
  deriving DecidableEq, Repr

/-- A thread state together with the live scope objects, most recent first. -/
abbrev Machine := ThreadState × List CodeSpaceWriteScope

/-- Runs one event. Destroying a scope that does not exist does nothing. -/
def step (cfg : Config) (m : Machine) : Op → Machine
  | .construct nm => ((CodeSpaceWriteScope.ctor cfg m.1 nm).1,
      (CodeSpaceWriteScope.ctor cfg m.1 nm).2 :: m.2)
  | .destroy k =>
    match m.2.get? k with
    | none => m
    | some self => (CodeSpaceWriteScope.dtor cfg m.1 self, m.2.eraseIdx k)

/-- Runs a sequence of events. -/
def run (cfg : Config) (m : Machine) : List Op → Machine
  | [] => m
  | op :: ops => run cfg (step cfg m op) ops

/-- From nesting depth `d`, the sequence destroys only the innermost live
scope of the sequence, never one below depth 0. -/
def lifo : Nat → List Op → Bool
  | _, [] => true
  | d, .construct _ :: ops => lifo (d + 1) ops
  | d + 1, .destroy 0 :: ops => lifo d ops
  | _, .destroy _ :: _ => false

/-- From nesting depth `d`, the sequence is strictly LIFO and closes every
scope: each destruction is that of the innermost live scope, and `d` scopes
more are destroyed than are constructed. -/
def balanced : Nat → List Op → Bool
  | d, [] => d == 0
  | d, .construct _ :: ops => balanced (d + 1) ops
  | d + 1, .destroy 0 :: ops => balanced d ops
  | _, .destroy _ :: _ => false

/-- A well-nested sequence: scopes are destroyed in the reverse order of their
construction and none is left open. -/
def WellNested (ops : List Op) : Prop := balanced 0 ops = true

instance (ops : List Op) : Decidable (WellNested ops) := by
  unfold WellNested; infer_instance

/-- Destroys the given live scopes, innermost first. -/
def unwind (cfg : Config) (s : ThreadState) : List CodeSpaceWriteScope → ThreadState
  | [] => s
  | self :: rest => unwind cfg (CodeSpaceWriteScope.dtor cfg s self) rest

/-- The degraded configuration: no fast backend, write protection requested. -/
def degradedConfig : Config :=
  { V8_HAS_PTHREAD_JIT_WRITE_PROTECT := false
    MemoryProtectionKeysEnabled := false
    FLAG_wasm_memory_protection_keys := false
    FLAG_wasm_write_protect_code_memory := true
    IsSupported := false }

/-- The pthread build (`V8_HAS_PTHREAD_JIT_WRITE_PROTECT`). -/
def pthreadConfig : Config :=
  { V8_HAS_PTHREAD_JIT_WRITE_PROTECT := true
    MemoryProtectionKeysEnabled := false
    FLAG_wasm_memory_protection_keys := false
    FLAG_wasm_write_protect_code_memory := false
    IsSupported := true }

/-- No fast backend and no write protection requested. -/
def plainConfig : Config :=
  { V8_HAS_PTHREAD_JIT_WRITE_PROTECT := false
    MemoryProtectionKeysEnabled := false
    FLAG_wasm_memory_protection_keys := false
    FLAG_wasm_write_protect_code_memory := false
    IsSupported := false }

/-- The call is `AddWriter` or `RemoveWriter`, on whatever pointer. -/
def Call.isWriterCall : Call → Bool
  | .AddWriter _ => true
  | .RemoveWriter _ => true
  | _ => false

/-- The fast backend is available to region scopes: the pthread build, or
memory protection keys enabled. -/
def Config.fast (cfg : Config) : Bool :=
  cfg.V8_HAS_PTHREAD_JIT_WRITE_PROTECT || cfg.MemoryProtectionKeysEnabled

/-- Memory protection keys enabled, together with their flag. -/
def pkuConfig : Config :=
  { V8_HAS_PTHREAD_JIT_WRITE_PROTECT := false
    MemoryProtectionKeysEnabled := true
    FLAG_wasm_memory_protection_keys := true
    FLAG_wasm_write_protect_code_memory := false
    IsSupported := true }

/-- The protection-key build on a machine where no key is available: no
backend with hardware support, `RwxMemoryWriteScope::IsSupported()` is false
and the backend primitives are no-ops. -/
def unsupportedKeyConfig : Config :=
  { V8_HAS_PTHREAD_JIT_WRITE_PROTECT := false
    MemoryProtectionKeysEnabled := false
    FLAG_wasm_memory_protection_keys := true
    FLAG_wasm_write_protect_code_memory := false
    IsSupported := false }

/-! ## Sequences of global write scopes on one thread -/

/-- One event of the global write scope on a thread. -/
inductive RwxOp where
  /-- An `RwxMemoryWriteScope` is constructed. -/
  | enter
  /-- The innermost live `RwxMemoryWriteScope` is destroyed. -/
  | leave
  deriving DecidableEq, Repr

/-- Runs one event of the global write scope. -/
def rwxStep (cfg : Config) (s : ThreadState) : RwxOp → ThreadState
  | .enter => RwxMemoryWriteScope.ctor cfg s
  | .leave => RwxMemoryWriteScope.dtor cfg s

/-- Runs a sequence of events of the global write scope. -/
def rwxRun (cfg : Config) (s : ThreadState) : List RwxOp → ThreadState
  | [] => s
  | op :: ops => rwxRun cfg (rwxStep cfg s op) ops

/-- From nesting depth `d`, no scope is destroyed that was not constructed. -/
def rwxLifo : Nat → List RwxOp → Bool
  | _, [] => true
  | d, .enter :: ops => rwxLifo (d + 1) ops
  | d + 1, .leave :: ops => rwxLifo d ops
  | 0, .leave :: _ => false

/-- From nesting depth `d`, no scope is destroyed that was not constructed and
the sequence ends at depth 0. -/
def rwxBalanced : Nat → List RwxOp → Bool
  | d, [] => d == 0
  | d, .enter :: ops => rwxBalanced (d + 1) ops
  | d + 1, .leave :: ops => rwxBalanced d ops
  | 0, .leave :: _ => false

/-- A well-nested sequence of global write scopes. -/
def RwxWellNested (ops : List RwxOp) : Prop := rwxBalanced 0 ops = true

instance (ops : List RwxOp) : Decidable (RwxWellNested ops) := by
  unfold RwxWellNested; infer_instance

/-- The call is one of the two backend primitives. -/
def Call.isBackendCall : Call → Bool
  | .BackendSetWritable => true
  | .BackendSetExecutable => true
  | _ => false

/-- The calls of the backend primitives in a trace, in order. -/
def backendCalls (trace : List Call) : List Call :=
  trace.filter Call.isBackendCall

/-- Two thread states agree on the current region, on every writer count and
on the nesting counter. -/
def SameCore (a b : ThreadState) : Prop :=
  a.current_native_module = b.current_native_module
    ∧ a.writers_count_ = b.writers_count_
    ∧ a.code_space_write_nesting_level_ = b.code_space_write_nesting_level_

/-- The captured previous regions of the live scopes are consistent with
strict nesting: exactly the outermost scope has captured the null pointer. -/
def StackOk : List CodeSpaceWriteScope → Prop
  | [] => True
  | self :: rest => (self.previous_native_module_ = NativeModulePtr.nullptr ↔ rest = [])
      ∧ StackOk rest

/-- The current region is null exactly when no scope is live, and the live
scopes are consistent. -/
def OpenInv (m : Machine) : Prop :=
  (m.1.current_native_module = NativeModulePtr.nullptr ↔ m.2 = []) ∧ StackOk m.2

/-! ## The thread-spawn guard, declared in `src/common/code-memory-access.h` -/

/-- A live `ResetPKUPermissionsForThreadSpawning` object: its member
`was_writable_` (line 121). The class has no data member when
`V8_HAS_PKU_JIT_WRITE_PROTECT` is off; the field is then `false` and never
read. -/
structure ResetPKUPermissionsForThreadSpawning where
  /-- The member `was_writable_`. -/
  was_writable_ : Bool
  deriving DecidableEq, Repr

/-- Modelled from the spec: the constructor
`ResetPKUPermissionsForThreadSpawning::ResetPKUPermissionsForThreadSpawning()`
(declared at line 117; its body is in `code-memory-access.cc`). By §4.4: "if
the calling thread's hardware write-permission register currently grants
write access, revoke it (return to the default/non-writable posture) and
remember that it was granted"; "if the backend is unsupported, both operations
are no-ops". The first argument is the macro `V8_HAS_PKU_JIT_WRITE_PROTECT`:
when it is off the constructor is the empty one of line 124. -/
def ResetPKUPermissionsForThreadSpawning.ctor (V8_HAS_PKU_JIT_WRITE_PROTECT : Bool)
    (cfg : Config) (s : ThreadState) : ThreadState × ResetPKUPermissionsForThreadSpawning :=
  if V8_HAS_PKU_JIT_WRITE_PROTECT then
    if cfg.IsSupported then
      if s.writable then ({ s with writable := false }, ⟨true⟩) else (s, ⟨false⟩)
    else (s, ⟨false⟩)
  else (s, ⟨false⟩)

/-- Modelled from the spec: the destructor
`ResetPKUPermissionsForThreadSpawning::~ResetPKUPermissionsForThreadSpawning()`
(declared at line 118; its body is in `code-memory-access.cc`). By §4.4: "on
destruction, restore write access if it had been revoked". When
`V8_HAS_PKU_JIT_WRITE_PROTECT` is off the class has no destructor of its own. -/
def ResetPKUPermissionsForThreadSpawning.dtor (V8_HAS_PKU_JIT_WRITE_PROTECT : Bool)
    (cfg : Config) (s : ThreadState) (self : ResetPKUPermissionsForThreadSpawning) :
    ThreadState :=
  if V8_HAS_PKU_JIT_WRITE_PROTECT then
    if cfg.IsSupported then
      if self.was_writable_ then { s with writable := true } else s
    else s
  else s

/-! ## The calls made by one constructor or destructor -/

/-- The call enters write mode: `RwxMemoryWriteScope::SetWritable` or
`AddWriter`. -/
def Call.isEnterToggle : Call → Bool
  | .RwxSetWritable => true
  | .AddWriter _ => true
  | _ => false

/-- The call leaves write mode: `RwxMemoryWriteScope::SetExecutable` or
`RemoveWriter`. -/
def Call.isLeaveToggle : Call → Bool
  | .RwxSetExecutable => true
  | .RemoveWriter _ => true
  | _ => false

/-- The call is a `Set` of the thread-local current region. -/
def Call.isSetCurrent : Call → Bool
  | .SetCurrent _ => true
  | _ => false

/-- The call is `RwxMemoryWriteScope::SetWritable` or
`RwxMemoryWriteScope::SetExecutable`. -/
def Call.isRwxScopeCall : Call → Bool
  | .RwxSetWritable => true
  | .RwxSetExecutable => true
  | _ => false

/-- The calls of the global write scope in a trace, in order. -/
def rwxScopeCalls (trace : List Call) : List Call :=
  trace.filter Call.isRwxScopeCall

/-- The calls that `CodeSpaceWriteScope::SetWritable()` adds to the trace when
the nesting counter is `level` and the current region is `p`. -/
def enterCalls (cfg : Config) (level : Int) (p : NativeModulePtr) : List Call :=
  if cfg.fast then
    Call.RwxSetWritable :: (if level = 0 then [Call.BackendSetWritable] else [])
  else if cfg.FLAG_wasm_write_protect_code_memory then [Call.AddWriter p]
  else []

/-- The calls that `CodeSpaceWriteScope::SetExecutable()` adds to the trace
when the nesting counter is `level` and the current region is `p`. -/
def leaveCalls (cfg : Config) (level : Int) (p : NativeModulePtr) : List Call :=
  if cfg.fast then
    Call.RwxSetExecutable :: (if level = 1 then [Call.BackendSetExecutable] else [])
  else if cfg.FLAG_wasm_write_protect_code_memory then [Call.RemoveWriter p]
  else []

/-- The calls that the constructor adds to the trace. -/
def ctorCalls (cfg : Config) (s : ThreadState) (nm : Option Nat) : List Call :=
  if s.current_native_module = rewritten nm then []
  else Call.SetCurrent (rewritten nm) ::
    (if s.current_native_module = .nullptr || CodeSpaceWriteScope.SwitchingPerNativeModule cfg then
      enterCalls cfg s.code_space_write_nesting_level_ (rewritten nm)
    else [])

/-- The calls that the destructor adds to the trace. -/
def dtorCalls (cfg : Config) (s : ThreadState) (self : CodeSpaceWriteScope) : List Call :=
  if self.previous_native_module_ = s.current_native_module then []
  else
    (if self.previous_native_module_ = .nullptr
        || CodeSpaceWriteScope.SwitchingPerNativeModule cfg then
      leaveCalls cfg s.code_space_write_nesting_level_ s.current_native_module
    else []) ++ [Call.SetCurrent self.previous_native_module_]

/-! ## The live scopes and their regions -/

/-- The constructor arguments of the scopes that a sequence leaves live,
innermost first, given the arguments of those live before it. -/
def openArgs : List (Option Nat) → List Op → List (Option Nat)
  | args, [] => args
  | args, .construct nm :: ops => openArgs (nm :: args) ops
  | args, .destroy k :: ops => openArgs (args.eraseIdx k) ops

/-- The live scopes agree with their arguments: the region of the innermost
one, its rewritten argument, is the current region, and the region of every
other one is the captured previous region of the next inner one. -/
def Chain : NativeModulePtr → List (Option Nat) → List CodeSpaceWriteScope → Prop
  | _, [], _ => True
  | cur, a :: args, self :: rest =>
    cur = rewritten a ∧ Chain self.previous_native_module_ args rest
  | _, _ :: _, [] => False

/-- The number of live scopes for region `R` whose captured previous region is
not `R`; `args` are the constructor arguments of the live scopes. -/
def excess (R : Nat) : List (Option Nat) → List CodeSpaceWriteScope → Nat
  | a :: args, self :: rest =>
    (if rewritten a = NativeModulePtr.module R
        ∧ self.previous_native_module_ ≠ NativeModulePtr.module R then 1 else 0)
      + excess R args rest
  | _, _ => 0

/-! ## Basic facts -/

theorem switching_iff (cfg : Config) :
    CodeSpaceWriteScope.SwitchingPerNativeModule cfg = true ↔
      cfg.V8_HAS_PTHREAD_JIT_WRITE_PROTECT = false ∧ cfg.MemoryProtectionKeysEnabled = false ∧
        cfg.FLAG_wasm_write_protect_code_memory = true := by
  unfold CodeSpaceWriteScope.SwitchingPerNativeModule
  cases cfg.V8_HAS_PTHREAD_JIT_WRITE_PROTECT <;> cases cfg.MemoryProtectionKeysEnabled <;>
    cases cfg.FLAG_wasm_write_protect_code_memory <;> simp

theorem not_switching_iff (cfg : Config) :
    CodeSpaceWriteScope.SwitchingPerNativeModule cfg = false ↔
      (cfg.V8_HAS_PTHREAD_JIT_WRITE_PROTECT = true ∨ cfg.MemoryProtectionKeysEnabled = true ∨
        cfg.FLAG_wasm_write_protect_code_memory = false) := by
  unfold CodeSpaceWriteScope.SwitchingPerNativeModule
  cases cfg.V8_HAS_PTHREAD_JIT_WRITE_PROTECT <;> cases cfg.MemoryProtectionKeysEnabled <;>
    cases cfg.FLAG_wasm_write_protect_code_memory <;> simp

/-- In degraded mode the entering toggle is `AddWriter` on the current region. -/
theorem setWritable_degraded (cfg : Config) (s : ThreadState)
    (h : CodeSpaceWriteScope.SwitchingPerNativeModule cfg = true) :
    CodeSpaceWriteScope.SetWritable cfg s = AddWriter s.current_native_module s := by
  obtain ⟨h1, h2, h3⟩ := (switching_iff cfg).1 h
  simp [CodeSpaceWriteScope.SetWritable, h1, h2, h3]

/-- In degraded mode the leaving toggle is `RemoveWriter` on the current region. -/
theorem setExecutable_degraded (cfg : Config) (s : ThreadState)
    (h : CodeSpaceWriteScope.SwitchingPerNativeModule cfg = true) :
    CodeSpaceWriteScope.SetExecutable cfg s = RemoveWriter s.current_native_module s := by
  obtain ⟨h1, h2, h3⟩ := (switching_iff cfg).1 h
  simp [CodeSpaceWriteScope.SetExecutable, h1, h2, h3]

/-! ## C1 -/

/-- C1: in degraded mode (`SwitchingPerNativeModule()` is true), for every
thread state `s` and every real region `R` different from the current region,
constructing `CodeSpaceWriteScope(R)` makes `R` current, raises the writer
count of `R` by exactly one and leaves every other count unchanged; destroying
that scope in any state whose current region is still `R` lowers the count of
`R` by exactly one and leaves every other count unchanged, and destroying it
right after the construction gives back the counts of `s`. -/
theorem C1_degraded_entry_exit_refcount (cfg : Config) (s : ThreadState) (R : Nat)
    (hdeg : CodeSpaceWriteScope.SwitchingPerNativeModule cfg = true)
    (hne : s.current_native_module ≠ NativeModulePtr.module R) :
    ((CodeSpaceWriteScope.ctor cfg s (some R)).1.current_native_module = NativeModulePtr.module R
      ∧ (CodeSpaceWriteScope.ctor cfg s (some R)).1.writers_count_ R = s.writers_count_ R + 1
      ∧ ∀ r, r ≠ R → (CodeSpaceWriteScope.ctor cfg s (some R)).1.writers_count_ r
          = s.writers_count_ r)
    ∧ (∀ s2 : ThreadState, s2.current_native_module = NativeModulePtr.module R →
        (CodeSpaceWriteScope.dtor cfg s2 (CodeSpaceWriteScope.ctor cfg s (some R)).2).writers_count_ R
            = s2.writers_count_ R - 1
        ∧ ∀ r, r ≠ R →
          (CodeSpaceWriteScope.dtor cfg s2 (CodeSpaceWriteScope.ctor cfg s (some R)).2).writers_count_ r
            = s2.writers_count_ r)
    ∧ ∀ r, (CodeSpaceWriteScope.dtor cfg (CodeSpaceWriteScope.ctor cfg s (some R)).1
          (CodeSpaceWriteScope.ctor cfg s (some R)).2).writers_count_ r = s.writers_count_ r := by
  have hc : CodeSpaceWriteScope.ctor cfg s (some R)
      = (AddWriter (NativeModulePtr.module R)
          { s with current_native_module := NativeModulePtr.module R
                   trace := s.trace ++ [Call.SetCurrent (NativeModulePtr.module R)] },
        ⟨s.current_native_module⟩) := by
    simp [CodeSpaceWriteScope.ctor, hne, hdeg, setWritable_degraded]
  have hd : ∀ s2 : ThreadState, s2.current_native_module = NativeModulePtr.module R →
      (CodeSpaceWriteScope.dtor cfg s2 ⟨s.current_native_module⟩).writers_count_
        = fun r => if r = R then s2.writers_count_ r - 1 else s2.writers_count_ r := by
    intro s2 h2
    simp [CodeSpaceWriteScope.dtor, hne, hdeg, setExecutable_degraded, RemoveWriter, h2]
  rw [hc]
  refine ⟨⟨rfl, ?_, ?_⟩, ?_, ?_⟩
  · simp [AddWriter]
  · intro r hr; simp [AddWriter, hr]
  · intro s2 h2
    rw [hd s2 h2]
    refine ⟨by simp, ?_⟩
    intro r hr; simp [hr]
  · intro r
    rw [hd _ rfl]
    by_cases hr : r = R <;> simp [AddWriter, hr]

theorem C1_degraded_entry_exit_refcount_witness :
    CodeSpaceWriteScope.SwitchingPerNativeModule degradedConfig = true
    ∧ (ThreadState.initial (fun _ => 0)).current_native_module ≠ NativeModulePtr.module 7
    ∧ (CodeSpaceWriteScope.ctor degradedConfig (ThreadState.initial (fun _ => 0)) (some 7)).1.writers_count_ 7
        = 1
    ∧ (CodeSpaceWriteScope.dtor degradedConfig
        (CodeSpaceWriteScope.ctor degradedConfig (ThreadState.initial (fun _ => 0)) (some 7)).1
        (CodeSpaceWriteScope.ctor degradedConfig (ThreadState.initial (fun _ => 0)) (some 7)).2).writers_count_ 7
        = 0 := by
  have h := C1_degraded_entry_exit_refcount degradedConfig (ThreadState.initial (fun _ => 0)) 7
    (by decide) (by decide)
  exact ⟨by decide, by decide, h.1.2.1, h.2.2 7⟩

/-! ## C2 -/

/-- C2: for every configuration and every thread state whose current region
equals the (sentinel-rewritten) region of the argument, so that a scope for
that region is open, the constructor is a no-op: the trace is unchanged (no
call of `RwxMemoryWriteScope::SetWritable`, no `AddWriter`, no call at all),
and the current region, every writer count, the nesting counter and the page
permission are unchanged. The case `nm = none` with the sentinel current is
included. The only thing that precedes the comparison of line 43 is the
`DCHECK` of line 40, which is violated exactly when the argument is null
while `SwitchingPerNativeModule()` is true. -/
theorem C2_same_region_reentry_noop (cfg : Config) (s : ThreadState) (nm : Option Nat)
    (h : s.current_native_module = rewritten nm) :
    (CodeSpaceWriteScope.ctor cfg s nm).1.trace = s.trace
    ∧ (CodeSpaceWriteScope.ctor cfg s nm).1.current_native_module = s.current_native_module
    ∧ (CodeSpaceWriteScope.ctor cfg s nm).1.writers_count_ = s.writers_count_
    ∧ (CodeSpaceWriteScope.ctor cfg s nm).1.code_space_write_nesting_level_
        = s.code_space_write_nesting_level_
    ∧ (CodeSpaceWriteScope.ctor cfg s nm).1.writable = s.writable
    ∧ (CodeSpaceWriteScope.ctor cfg s nm).2.previous_native_module_ = s.current_native_module
    ∧ (CodeSpaceWriteScope.ctor cfg s nm).1.dcheck_failed
        = (s.dcheck_failed || (nm.isNone && CodeSpaceWriteScope.SwitchingPerNativeModule cfg)) := by
  cases nm with
  | none =>
    simp only [rewritten] at h
    cases hsw : CodeSpaceWriteScope.SwitchingPerNativeModule cfg <;>
      simp [CodeSpaceWriteScope.ctor, h, DCHECK, hsw]
  | some id =>
    simp only [rewritten] at h
    simp [CodeSpaceWriteScope.ctor, h]

theorem C2_same_region_reentry_noop_witness :
    (CodeSpaceWriteScope.ctor pthreadConfig (ThreadState.initial (fun _ => 0)) none).1.current_native_module
        = rewritten none
    ∧ (CodeSpaceWriteScope.ctor pthreadConfig
        (CodeSpaceWriteScope.ctor pthreadConfig (ThreadState.initial (fun _ => 0)) none).1 none).1.trace
        = [Call.SetCurrent NativeModulePtr.dummy, Call.RwxSetWritable, Call.BackendSetWritable] :=
  ⟨by decide,
    (C2_same_region_reentry_noop pthreadConfig
      (CodeSpaceWriteScope.ctor pthreadConfig (ThreadState.initial (fun _ => 0)) none).1 none
      (by decide)).1.trans (by decide)⟩

/-! ## C8 -/

/-- C8: `SwitchingPerNativeModule()` is true if and only if the build is not
the pthread one, `MemoryProtectionKeysEnabled()` is false and
`FLAG_wasm_write_protect_code_memory` is set; it is false in the pthread build
and false when memory protection keys are enabled, whatever the other
settings. It reads no thread state. -/
theorem C8_switching_per_native_module (cfg : Config) :
    (CodeSpaceWriteScope.SwitchingPerNativeModule cfg = true ↔
      (cfg.V8_HAS_PTHREAD_JIT_WRITE_PROTECT = false ∧ cfg.MemoryProtectionKeysEnabled = false)
        ∧ cfg.FLAG_wasm_write_protect_code_memory = true)
    ∧ CodeSpaceWriteScope.SwitchingPerNativeModule
        { cfg with V8_HAS_PTHREAD_JIT_WRITE_PROTECT := true } = false
    ∧ CodeSpaceWriteScope.SwitchingPerNativeModule
        { cfg with MemoryProtectionKeysEnabled := true } = false := by
  refine ⟨?_, ?_, ?_⟩
  · rw [switching_iff, and_assoc]
  · simp [CodeSpaceWriteScope.SwitchingPerNativeModule]
  · simp [CodeSpaceWriteScope.SwitchingPerNativeModule]

/-! ## C4 -/

/-- C4: whenever `SwitchingPerNativeModule()` is false, for every thread state
and every argument, neither the constructor nor the destructor calls
`AddWriter` or `RemoveWriter` (the calls they add to the trace are none of
these) and every writer count is unchanged; besides the current region the
only state they change is the global nesting counter, together with the page
permission that the counter drives: when the counter keeps its value, so does
the permission. -/
theorem C4_no_writer_calls_without_switching (cfg : Config)
    (h : CodeSpaceWriteScope.SwitchingPerNativeModule cfg = false) :
    (∀ (s : ThreadState) (nm : Option Nat),
      (CodeSpaceWriteScope.ctor cfg s nm).1.writers_count_ = s.writers_count_
      ∧ (∃ calls, (CodeSpaceWriteScope.ctor cfg s nm).1.trace = s.trace ++ calls
          ∧ ∀ c ∈ calls, c.isWriterCall = false)
      ∧ ((CodeSpaceWriteScope.ctor cfg s nm).1.code_space_write_nesting_level_
            = s.code_space_write_nesting_level_ →
          (CodeSpaceWriteScope.ctor cfg s nm).1.writable = s.writable))
    ∧ (∀ (s : ThreadState) (self : CodeSpaceWriteScope),
      (CodeSpaceWriteScope.dtor cfg s self).writers_count_ = s.writers_count_
      ∧ (∃ calls, (CodeSpaceWriteScope.dtor cfg s self).trace = s.trace ++ calls
          ∧ ∀ c ∈ calls, c.isWriterCall = false)
      ∧ ((CodeSpaceWriteScope.dtor cfg s self).code_space_write_nesting_level_
            = s.code_space_write_nesting_level_ →
          (CodeSpaceWriteScope.dtor cfg s self).writable = s.writable)) := by
  have hw : ∀ s : ThreadState,
      (CodeSpaceWriteScope.SetWritable cfg s).writers_count_ = s.writers_count_
      ∧ (CodeSpaceWriteScope.SetWritable cfg s).current_native_module = s.current_native_module
      ∧ (∃ calls, (CodeSpaceWriteScope.SetWritable cfg s).trace = s.trace ++ calls
          ∧ ∀ c ∈ calls, c.isWriterCall = false)
      ∧ ((CodeSpaceWriteScope.SetWritable cfg s).code_space_write_nesting_level_
            = s.code_space_write_nesting_level_ →
          (CodeSpaceWriteScope.SetWritable cfg s).writable = s.writable) := by
    intro s
    rcases (not_switching_iff cfg).1 h with h1 | h1 | h1
    · by_cases h0 : s.code_space_write_nesting_level_ = 0 <;>
        simp [CodeSpaceWriteScope.SetWritable, RwxMemoryWriteScope.SetWritable,
          Backend.set_writable, h1, h0, Call.isWriterCall]
    · by_cases h0 : s.code_space_write_nesting_level_ = 0 <;>
        simp [CodeSpaceWriteScope.SetWritable, RwxMemoryWriteScope.SetWritable,
          Backend.set_writable, h1, h0, Call.isWriterCall]
    · cases hp : cfg.V8_HAS_PTHREAD_JIT_WRITE_PROTECT <;>
        cases hk : cfg.MemoryProtectionKeysEnabled <;>
        by_cases h0 : s.code_space_write_nesting_level_ = 0 <;>
        simp [CodeSpaceWriteScope.SetWritable, RwxMemoryWriteScope.SetWritable,
          Backend.set_writable, h1, h0, hp, hk, Call.isWriterCall]
  have he : ∀ s : ThreadState,
      (CodeSpaceWriteScope.SetExecutable cfg s).writers_count_ = s.writers_count_
      ∧ (∃ calls, (CodeSpaceWriteScope.SetExecutable cfg s).trace = s.trace ++ calls
          ∧ ∀ c ∈ calls, c.isWriterCall = false)
      ∧ ((CodeSpaceWriteScope.SetExecutable cfg s).code_space_write_nesting_level_
            = s.code_space_write_nesting_level_ →
          (CodeSpaceWriteScope.SetExecutable cfg s).writable = s.writable) := by
    intro s
    cases hp : cfg.V8_HAS_PTHREAD_JIT_WRITE_PROTECT <;>
      cases hk : cfg.MemoryProtectionKeysEnabled <;>
      cases hf : cfg.FLAG_wasm_write_protect_code_memory <;>
      cases hm : cfg.FLAG_wasm_memory_protection_keys <;>
      by_cases h0 : s.code_space_write_nesting_level_ - 1 = 0 <;>
      simp_all [CodeSpaceWriteScope.SetExecutable, RwxMemoryWriteScope.SetExecutable,
        Backend.set_executable, DCHECK, Call.isWriterCall,
        CodeSpaceWriteScope.SwitchingPerNativeModule] <;>
      (intro hz; omega)
  refine ⟨?_, ?_⟩
  · intro s nm
    have key : ∀ (s1 : ThreadState) (p : NativeModulePtr),
        s1.writers_count_ = s.writers_count_ → s1.trace = s.trace →
        s1.code_space_write_nesting_level_ = s.code_space_write_nesting_level_ →
        s1.writable = s.writable →
        ∀ r : ThreadState × CodeSpaceWriteScope,
        r = (if s.current_native_module = p then (s1, ⟨s.current_native_module⟩)
          else if s.current_native_module = .nullptr
              || CodeSpaceWriteScope.SwitchingPerNativeModule cfg then
            (CodeSpaceWriteScope.SetWritable cfg { s1 with
              current_native_module := p
              trace := s1.trace ++ [Call.SetCurrent p] }, ⟨s.current_native_module⟩)
          else ({ s1 with
              current_native_module := p
              trace := s1.trace ++ [Call.SetCurrent p] }, ⟨s.current_native_module⟩)) →
        r.1.writers_count_ = s.writers_count_
        ∧ (∃ calls, r.1.trace = s.trace ++ calls ∧ ∀ c ∈ calls, c.isWriterCall = false)
        ∧ (r.1.code_space_write_nesting_level_ = s.code_space_write_nesting_level_ →
            r.1.writable = s.writable) := by
      intro s1 p hw1 ht1 hl1 hwr1 r hr
      subst hr
      by_cases hc : s.current_native_module = p
      · simp only [hc, if_true]
        exact ⟨hw1, ⟨[], by simp [ht1]⟩, fun _ => hwr1⟩
      · simp only [hc, if_false]
        by_cases hn : (s.current_native_module = .nullptr
              || CodeSpaceWriteScope.SwitchingPerNativeModule cfg) = true
        · simp only [hn, if_true]
          obtain ⟨a, _, ⟨calls, hcalls, hall⟩, d⟩ := hw { s1 with
              current_native_module := p
              trace := s1.trace ++ [Call.SetCurrent p] }
          refine ⟨by rw [a]; exact hw1, ⟨Call.SetCurrent p :: calls, ?_, ?_⟩, ?_⟩
          · rw [hcalls]; simp [ht1]
          · intro c hcmem
            rcases List.mem_cons.1 hcmem with hc1 | hc1
            · subst hc1; rfl
            · exact hall c hc1
          · intro hl
            rw [d (by rw [hl]; exact hl1.symm)]; exact hwr1
        · simp only [hn]
          refine ⟨hw1, ⟨[Call.SetCurrent p], by simp [ht1], ?_⟩, fun _ => hwr1⟩
          intro c hcmem
          rw [List.mem_singleton.1 hcmem]; rfl
    cases nm with
    | none =>
      exact key (DCHECK (!CodeSpaceWriteScope.SwitchingPerNativeModule cfg) s) GetDummyNativeModule
        (by simp [DCHECK, h]) (by simp [DCHECK, h]) (by simp [DCHECK, h]) (by simp [DCHECK, h])
        _ (by simp [CodeSpaceWriteScope.ctor])
    | some id =>
      exact key s (NativeModulePtr.module id) rfl rfl rfl rfl _ (by simp [CodeSpaceWriteScope.ctor])
  · intro s self
    unfold CodeSpaceWriteScope.dtor
    by_cases hc : self.previous_native_module_ = s.current_native_module
    · simp [hc]
    · simp only [hc, if_false]
      by_cases hn : (self.previous_native_module_ = .nullptr
              || CodeSpaceWriteScope.SwitchingPerNativeModule cfg) = true
      · simp only [hn, if_true]
        obtain ⟨a, ⟨calls, hcalls, hall⟩, d⟩ := he s
        refine ⟨a, ⟨calls ++ [Call.SetCurrent self.previous_native_module_], ?_, ?_⟩, d⟩
        · rw [hcalls]; simp
        · intro c hcmem
          rcases List.mem_append.1 hcmem with hc1 | hc1
          · exact hall c hc1
          · rw [List.mem_singleton.1 hc1]; rfl
      · simp only [hn]
        refine ⟨rfl, ⟨[Call.SetCurrent self.previous_native_module_], by simp, ?_⟩, fun _ => rfl⟩
        intro c hcmem
        rw [List.mem_singleton.1 hcmem]; rfl

theorem C4_no_writer_calls_without_switching_witness :
    CodeSpaceWriteScope.SwitchingPerNativeModule pthreadConfig = false
    ∧ (CodeSpaceWriteScope.ctor pthreadConfig (ThreadState.initial (fun _ => 5)) (some 3)).1.writers_count_
        = (ThreadState.initial (fun _ => 5)).writers_count_ :=
  ⟨by decide,
    ((C4_no_writer_calls_without_switching pthreadConfig (by decide)).1
      (ThreadState.initial (fun _ => 5)) (some 3)).1⟩

/-! ## C6 -/

/-- C6, as stated, fails: without a fast backend and with
`FLAG_wasm_write_protect_code_memory` unset, constructing a scope for region 1
on a thread with no scope open runs the entering toggle (the previous region
is null), yet the toggle neither calls `RwxMemoryWriteScope::SetWritable` nor
increments the writer count of region 1: the only call made is the `Set` of
the current region. -/
theorem C6_toggle_one_of_two_counterexample :
    rewritten (some 1) ≠ (ThreadState.initial (fun _ => 0)).current_native_module
    ∧ (ThreadState.initial (fun _ => 0)).current_native_module = NativeModulePtr.nullptr
    ∧ (CodeSpaceWriteScope.ctor plainConfig (ThreadState.initial (fun _ => 0)) (some 1)).1.trace
        = [Call.SetCurrent (NativeModulePtr.module 1)]
    ∧ (CodeSpaceWriteScope.ctor plainConfig
        (ThreadState.initial (fun _ => 0)) (some 1)).1.code_space_write_nesting_level_ = 0
    ∧ (CodeSpaceWriteScope.ctor plainConfig
        (ThreadState.initial (fun _ => 0)) (some 1)).1.writers_count_ 1 = 0 := by
  decide

/-- C6, amended: for every configuration and every construction whose
(sentinel-rewritten) region differs from the captured previous region, the
current region becomes the new region and the object captures the previous
one. If previous is null or `SwitchingPerNativeModule()` is true the entering
toggle runs and does exactly one of three things: with the fast backend (the
pthread build or memory protection keys enabled) it calls
`RwxMemoryWriteScope::SetWritable` once, which raises the nesting counter by
one, and touches no writer count; otherwise, with
`FLAG_wasm_write_protect_code_memory` set, it calls `AddWriter` on the new
region once, which raises the writer count of that region, when it is a real
region, by one and leaves the nesting counter; otherwise it does nothing. If
previous is non-null and `SwitchingPerNativeModule()` is false no toggle runs. -/
theorem C6_constructor_different_region (cfg : Config) (s : ThreadState) (nm : Option Nat)
    (hne : rewritten nm ≠ s.current_native_module) :
    (CodeSpaceWriteScope.ctor cfg s nm).1.current_native_module = rewritten nm
    ∧ (CodeSpaceWriteScope.ctor cfg s nm).2.previous_native_module_ = s.current_native_module
    ∧ ((s.current_native_module = NativeModulePtr.nullptr
          ∨ CodeSpaceWriteScope.SwitchingPerNativeModule cfg = true) →
        (cfg.fast = true →
          (CodeSpaceWriteScope.ctor cfg s nm).1.trace
              = s.trace ++ [Call.SetCurrent (rewritten nm), Call.RwxSetWritable]
                ++ (if s.code_space_write_nesting_level_ = 0 then [Call.BackendSetWritable] else [])
          ∧ (CodeSpaceWriteScope.ctor cfg s nm).1.code_space_write_nesting_level_
              = s.code_space_write_nesting_level_ + 1
          ∧ (CodeSpaceWriteScope.ctor cfg s nm).1.writers_count_ = s.writers_count_)
        ∧ (cfg.fast = false → cfg.FLAG_wasm_write_protect_code_memory = true →
          (CodeSpaceWriteScope.ctor cfg s nm).1.trace
              = s.trace ++ [Call.SetCurrent (rewritten nm), Call.AddWriter (rewritten nm)]
          ∧ (CodeSpaceWriteScope.ctor cfg s nm).1.code_space_write_nesting_level_
              = s.code_space_write_nesting_level_
          ∧ ∀ id, nm = some id →
              (CodeSpaceWriteScope.ctor cfg s nm).1.writers_count_ id = s.writers_count_ id + 1
              ∧ ∀ r, r ≠ id →
                (CodeSpaceWriteScope.ctor cfg s nm).1.writers_count_ r = s.writers_count_ r)
        ∧ (cfg.fast = false → cfg.FLAG_wasm_write_protect_code_memory = false →
          (CodeSpaceWriteScope.ctor cfg s nm).1.trace = s.trace ++ [Call.SetCurrent (rewritten nm)]
          ∧ (CodeSpaceWriteScope.ctor cfg s nm).1.code_space_write_nesting_level_
              = s.code_space_write_nesting_level_
          ∧ (CodeSpaceWriteScope.ctor cfg s nm).1.writers_count_ = s.writers_count_))
    ∧ (s.current_native_module ≠ NativeModulePtr.nullptr →
        CodeSpaceWriteScope.SwitchingPerNativeModule cfg = false →
          (CodeSpaceWriteScope.ctor cfg s nm).1.trace = s.trace ++ [Call.SetCurrent (rewritten nm)]
          ∧ (CodeSpaceWriteScope.ctor cfg s nm).1.code_space_write_nesting_level_
              = s.code_space_write_nesting_level_
          ∧ (CodeSpaceWriteScope.ctor cfg s nm).1.writers_count_ = s.writers_count_) := by
  have hne1 : ¬ s.current_native_module = rewritten nm := fun h => hne h.symm
  obtain ⟨p, k, m, f, u⟩ := cfg
  cases nm with
  | none =>
    simp only [rewritten, GetDummyNativeModule] at hne1
    by_cases hnull : s.current_native_module = NativeModulePtr.nullptr <;>
      by_cases h0 : s.code_space_write_nesting_level_ = 0 <;>
      cases p <;> cases k <;> cases f <;>
      simp [CodeSpaceWriteScope.ctor, rewritten, GetDummyNativeModule, hne1, hnull, h0, DCHECK,
        CodeSpaceWriteScope.SwitchingPerNativeModule, CodeSpaceWriteScope.SetWritable,
        RwxMemoryWriteScope.SetWritable, Backend.set_writable, AddWriter, Config.fast]
  | some id =>
    simp only [rewritten] at hne1
    by_cases hnull : s.current_native_module = NativeModulePtr.nullptr <;>
      by_cases h0 : s.code_space_write_nesting_level_ = 0 <;>
      cases p <;> cases k <;> cases f <;>
      simp [CodeSpaceWriteScope.ctor, rewritten, hne1, hnull, h0,
        CodeSpaceWriteScope.SwitchingPerNativeModule, CodeSpaceWriteScope.SetWritable,
        RwxMemoryWriteScope.SetWritable, Backend.set_writable, AddWriter, Config.fast]

theorem C6_constructor_different_region_witness :
    rewritten (some 1) ≠ (ThreadState.initial (fun _ => 0)).current_native_module
    ∧ (CodeSpaceWriteScope.ctor degradedConfig
        (ThreadState.initial (fun _ => 0)) (some 1)).1.current_native_module
        = rewritten (some 1) :=
  ⟨by decide,
    (C6_constructor_different_region degradedConfig (ThreadState.initial (fun _ => 0)) (some 1)
      (by decide)).1⟩

/-! ## C9 -/

/-- C9: a null argument is permitted when `SwitchingPerNativeModule()` is
false and stands for one fixed sentinel, which is neither null nor any real
region. For every thread state, after `CodeSpaceWriteScope(nullptr)` the
current region is the sentinel, `IsInScope()` is true, the constructor's
`DCHECK` has passed and the object has captured the current region of before
the construction. If no scope was open before, the entering toggle runs on
the state with the sentinel as current region, exactly as it runs for a real
region `id`, and leaves the same nesting counter, page permission and writer
counts as the construction for `id` does. -/
theorem C9_null_region_sentinel (cfg : Config)
    (h : CodeSpaceWriteScope.SwitchingPerNativeModule cfg = false) (s : ThreadState) :
    (GetDummyNativeModule ≠ NativeModulePtr.nullptr
      ∧ ∀ id, GetDummyNativeModule ≠ NativeModulePtr.module id)
    ∧ (CodeSpaceWriteScope.ctor cfg s none).1.current_native_module = GetDummyNativeModule
    ∧ CodeSpaceWriteScope.IsInScope (CodeSpaceWriteScope.ctor cfg s none).1 = true
    ∧ (CodeSpaceWriteScope.ctor cfg s none).1.dcheck_failed = s.dcheck_failed
    ∧ (CodeSpaceWriteScope.ctor cfg s none).2.previous_native_module_ = s.current_native_module
    ∧ (s.current_native_module = NativeModulePtr.nullptr →
        (CodeSpaceWriteScope.ctor cfg s none).2.previous_native_module_ = NativeModulePtr.nullptr
        ∧ (CodeSpaceWriteScope.ctor cfg s none).1
            = CodeSpaceWriteScope.SetWritable cfg { s with
                current_native_module := GetDummyNativeModule
                trace := s.trace ++ [Call.SetCurrent GetDummyNativeModule] }
        ∧ ∀ id : Nat,
          (CodeSpaceWriteScope.ctor cfg s (some id)).1
            = CodeSpaceWriteScope.SetWritable cfg { s with
                current_native_module := NativeModulePtr.module id
                trace := s.trace ++ [Call.SetCurrent (NativeModulePtr.module id)] }
          ∧ (CodeSpaceWriteScope.ctor cfg s none).1.code_space_write_nesting_level_
              = (CodeSpaceWriteScope.ctor cfg s (some id)).1.code_space_write_nesting_level_
          ∧ (CodeSpaceWriteScope.ctor cfg s none).1.writable
              = (CodeSpaceWriteScope.ctor cfg s (some id)).1.writable
          ∧ (CodeSpaceWriteScope.ctor cfg s none).1.writers_count_
              = (CodeSpaceWriteScope.ctor cfg s (some id)).1.writers_count_) := by
  have hctor : CodeSpaceWriteScope.ctor cfg s none
      = (if s.current_native_module = NativeModulePtr.dummy then (s, ⟨s.current_native_module⟩)
        else if s.current_native_module = NativeModulePtr.nullptr then
          (CodeSpaceWriteScope.SetWritable cfg { s with
              current_native_module := NativeModulePtr.dummy
              trace := s.trace ++ [Call.SetCurrent NativeModulePtr.dummy] },
            ⟨s.current_native_module⟩)
        else ({ s with
              current_native_module := NativeModulePtr.dummy
              trace := s.trace ++ [Call.SetCurrent NativeModulePtr.dummy] },
            ⟨s.current_native_module⟩)) := by
    simp [CodeSpaceWriteScope.ctor, DCHECK, h, GetDummyNativeModule]
  have hcur : ∀ s : ThreadState,
      (CodeSpaceWriteScope.SetWritable cfg s).current_native_module = s.current_native_module
      ∧ (CodeSpaceWriteScope.SetWritable cfg s).dcheck_failed = s.dcheck_failed := by
    intro s
    obtain ⟨p, k, m, f, u⟩ := cfg
    by_cases h0 : s.code_space_write_nesting_level_ = 0 <;>
      cases p <;> cases k <;> cases f <;>
      simp_all [CodeSpaceWriteScope.SetWritable, RwxMemoryWriteScope.SetWritable,
        Backend.set_writable, AddWriter, CodeSpaceWriteScope.SwitchingPerNativeModule]
  rw [hctor]
  refine ⟨⟨by decide, fun id => by simp [GetDummyNativeModule]⟩, ?_, ?_, ?_, ?_, ?_⟩
  · split_ifs with hc hn
    · simpa [GetDummyNativeModule] using hc
    · simp [(hcur _).1, GetDummyNativeModule]
    · simp [GetDummyNativeModule]
  · split_ifs with hc hn
    · simp [CodeSpaceWriteScope.IsInScope, hc]
    · simp [CodeSpaceWriteScope.IsInScope, (hcur _).1]
    · simp [CodeSpaceWriteScope.IsInScope]
  · split_ifs with hc hn
    · rfl
    · simp [(hcur _).2]
    · rfl
  · split_ifs <;> rfl
  · intro hn
    have e2 : ∀ id : Nat, (CodeSpaceWriteScope.ctor cfg s (some id)).1
        = CodeSpaceWriteScope.SetWritable cfg { s with
            current_native_module := NativeModulePtr.module id
            trace := s.trace ++ [Call.SetCurrent (NativeModulePtr.module id)] } := by
      intro id
      simp [CodeSpaceWriteScope.ctor, hn]
    simp only [hn, if_true, GetDummyNativeModule]
    refine ⟨by simp, by simp, ?_⟩
    intro id
    refine ⟨e2 id, ?_⟩
    rw [e2 id]
    obtain ⟨p, k, m, f, u⟩ := cfg
    by_cases h0 : s.code_space_write_nesting_level_ = 0 <;>
      cases p <;> cases k <;> cases f <;>
      simp_all [CodeSpaceWriteScope.SetWritable, RwxMemoryWriteScope.SetWritable,
        Backend.set_writable, AddWriter, CodeSpaceWriteScope.SwitchingPerNativeModule]

theorem C9_null_region_sentinel_witness :
    CodeSpaceWriteScope.SwitchingPerNativeModule pthreadConfig = false
    ∧ CodeSpaceWriteScope.IsInScope
        (CodeSpaceWriteScope.ctor pthreadConfig (ThreadState.initial (fun _ => 0)) none).1 = true :=
  ⟨by decide,
    (C9_null_region_sentinel pthreadConfig (by decide) (ThreadState.initial (fun _ => 0))).2.2.1⟩

/-! ## Well-nested sequences: C3, C5, C7 -/

theorem SameCore.refl (a : ThreadState) : SameCore a a := ⟨rfl, rfl, rfl⟩

theorem SameCore.trans {a b c : ThreadState} (h1 : SameCore a b) (h2 : SameCore b c) :
    SameCore a c :=
  ⟨h1.1.trans h2.1, h1.2.1.trans h2.2.1, h1.2.2.trans h2.2.2⟩

/-- The leaving toggle acts on the current region, the writer counts and the
nesting counter only through these three. -/
theorem setExecutable_sameCore (cfg : Config) {a b : ThreadState} (h : SameCore a b) :
    SameCore (CodeSpaceWriteScope.SetExecutable cfg a) (CodeSpaceWriteScope.SetExecutable cfg b) := by
  obtain ⟨ac, al, aw, awr, atr, ad⟩ := a
  obtain ⟨bc, bl, bw, bwr, btr, bd⟩ := b
  obtain ⟨h1, h2, h3⟩ := h
  simp only at h1 h2 h3
  subst h1 h2 h3
  obtain ⟨p, k, m, f, u⟩ := cfg
  by_cases h0 : al - 1 = 0 <;>
    cases p <;> cases k <;> cases f <;> cases m <;>
    simp [SameCore, CodeSpaceWriteScope.SetExecutable, RwxMemoryWriteScope.SetExecutable,
      Backend.set_executable, DCHECK, RemoveWriter, h0]

/-- The destructor respects agreement on the core of the state. -/
theorem dtor_sameCore (cfg : Config) {a b : ThreadState} (self : CodeSpaceWriteScope)
    (h : SameCore a b) :
    SameCore (CodeSpaceWriteScope.dtor cfg a self) (CodeSpaceWriteScope.dtor cfg b self) := by
  have hc := h.1
  unfold CodeSpaceWriteScope.dtor
  rw [← hc]
  by_cases hp : self.previous_native_module_ = a.current_native_module
  · simp only [hp, if_true]; exact h
  · simp only [hp, if_false]
    by_cases hn : (self.previous_native_module_ = .nullptr
        || CodeSpaceWriteScope.SwitchingPerNativeModule cfg) = true
    · simp only [hn, if_true]
      have := setExecutable_sameCore cfg h
      exact ⟨rfl, this.2.1, this.2.2⟩
    · simp only [hn]
      exact ⟨rfl, h.2.1, h.2.2⟩

theorem unwind_sameCore (cfg : Config) (stk : List CodeSpaceWriteScope) :
    ∀ {a b : ThreadState}, SameCore a b → SameCore (unwind cfg a stk) (unwind cfg b stk) := by
  induction stk with
  | nil => intro a b h; exact h
  | cons self rest ih => intro a b h; exact ih (dtor_sameCore cfg self h)

/-- The constructor leaves the rewritten argument as the current region. -/
theorem ctor_current (cfg : Config) (s : ThreadState) (nm : Option Nat) :
    (CodeSpaceWriteScope.ctor cfg s nm).1.current_native_module = rewritten nm := by
  obtain ⟨p, k, m, f, u⟩ := cfg
  cases nm <;>
    by_cases hc : s.current_native_module = NativeModulePtr.nullptr <;>
    by_cases h0 : s.code_space_write_nesting_level_ = 0 <;>
    cases p <;> cases k <;> cases f <;>
    simp [CodeSpaceWriteScope.ctor, rewritten, GetDummyNativeModule, DCHECK, hc, h0,
      CodeSpaceWriteScope.SwitchingPerNativeModule, CodeSpaceWriteScope.SetWritable,
      RwxMemoryWriteScope.SetWritable, Backend.set_writable, AddWriter] <;>
    split_ifs <;> simp_all

/-- The constructed object holds the current region of before the construction. -/
theorem ctor_previous (cfg : Config) (s : ThreadState) (nm : Option Nat) :
    (CodeSpaceWriteScope.ctor cfg s nm).2.previous_native_module_ = s.current_native_module := by
  unfold CodeSpaceWriteScope.ctor
  simp only
  split_ifs <;> rfl

/-- The destructor leaves the captured previous region as the current region. -/
theorem dtor_current (cfg : Config) (s : ThreadState) (self : CodeSpaceWriteScope) :
    (CodeSpaceWriteScope.dtor cfg s self).current_native_module
      = self.previous_native_module_ := by
  unfold CodeSpaceWriteScope.dtor
  split_ifs with h <;> simp [h]

/-- The entering toggle keeps the current region. -/
theorem setWritable_current (cfg : Config) (s : ThreadState) :
    (CodeSpaceWriteScope.SetWritable cfg s).current_native_module = s.current_native_module := by
  obtain ⟨p, k, m, f, u⟩ := cfg
  by_cases h0 : s.code_space_write_nesting_level_ = 0 <;>
    cases p <;> cases k <;> cases f <;>
    simp [CodeSpaceWriteScope.SetWritable, RwxMemoryWriteScope.SetWritable,
      Backend.set_writable, AddWriter, h0]

/-- The leaving toggle undoes the entering toggle on the writer counts and on
the nesting counter. -/
theorem setExecutable_setWritable (cfg : Config) (s : ThreadState) :
    SameCore (CodeSpaceWriteScope.SetExecutable cfg (CodeSpaceWriteScope.SetWritable cfg s)) s := by
  obtain ⟨p, k, m, f, u⟩ := cfg
  obtain ⟨c, l, w, wr, tr, d⟩ := s
  have hfun : ∀ id : Nat,
      (fun r => if r = id then (if r = id then wr r + 1 else wr r) - 1
        else if r = id then wr r + 1 else wr r) = wr := by
    intro id; funext r; by_cases hr : r = id <;> simp [hr]
  by_cases h0 : l = 0 <;>
    cases p <;> cases k <;> cases f <;> cases m <;> cases c <;>
    simp [SameCore, CodeSpaceWriteScope.SetWritable, CodeSpaceWriteScope.SetExecutable,
      RwxMemoryWriteScope.SetWritable, RwxMemoryWriteScope.SetExecutable,
      Backend.set_writable, Backend.set_executable, DCHECK, AddWriter, RemoveWriter, h0, hfun]

/-- Destroying a scope right after its construction restores the current
region, every writer count and the nesting counter. -/
theorem dtor_ctor_sameCore (cfg : Config) (s : ThreadState) (nm : Option Nat) :
    SameCore (CodeSpaceWriteScope.dtor cfg (CodeSpaceWriteScope.ctor cfg s nm).1
      (CodeSpaceWriteScope.ctor cfg s nm).2) s := by
  have hD : ∀ c : Bool, SameCore (DCHECK c s) s := by
    intro c; cases c <;> simp [DCHECK, SameCore]
  have key : ∀ (s1 : ThreadState) (q : NativeModulePtr), SameCore s1 s → q = rewritten nm →
      CodeSpaceWriteScope.ctor cfg s nm
        = (if s.current_native_module = q then (s1, ⟨s.current_native_module⟩)
          else if s.current_native_module = .nullptr
              || CodeSpaceWriteScope.SwitchingPerNativeModule cfg then
            (CodeSpaceWriteScope.SetWritable cfg { s1 with
              current_native_module := q
              trace := s1.trace ++ [Call.SetCurrent q] }, ⟨s.current_native_module⟩)
          else ({ s1 with
              current_native_module := q
              trace := s1.trace ++ [Call.SetCurrent q] }, ⟨s.current_native_module⟩)) →
      SameCore (CodeSpaceWriteScope.dtor cfg (CodeSpaceWriteScope.ctor cfg s nm).1
        (CodeSpaceWriteScope.ctor cfg s nm).2) s := by
    intro s1 q h1 _ hctor
    rw [hctor]
    split_ifs with hc hn
    · show SameCore (CodeSpaceWriteScope.dtor cfg s1 ⟨s.current_native_module⟩) s
      have : s.current_native_module = s1.current_native_module := h1.1.symm
      simp only [CodeSpaceWriteScope.dtor, this, if_true]
      exact h1
    · show SameCore (CodeSpaceWriteScope.dtor cfg (CodeSpaceWriteScope.SetWritable cfg { s1 with
              current_native_module := q
              trace := s1.trace ++ [Call.SetCurrent q] }) ⟨s.current_native_module⟩) s
      have h2 := setExecutable_setWritable cfg { s1 with
              current_native_module := q
              trace := s1.trace ++ [Call.SetCurrent q] }
      unfold CodeSpaceWriteScope.dtor
      rw [if_neg (by rw [setWritable_current]; exact hc), if_pos hn]
      exact ⟨rfl, h2.2.1.trans h1.2.1, h2.2.2.trans h1.2.2⟩
    · show SameCore (CodeSpaceWriteScope.dtor cfg { s1 with
              current_native_module := q
              trace := s1.trace ++ [Call.SetCurrent q] } ⟨s.current_native_module⟩) s
      unfold CodeSpaceWriteScope.dtor
      rw [if_neg hc, if_neg hn]
      exact ⟨rfl, h1.2.1, h1.2.2⟩
  cases nm with
  | none =>
    exact key (DCHECK (!CodeSpaceWriteScope.SwitchingPerNativeModule cfg) s) GetDummyNativeModule
      (hD _) rfl (by simp [CodeSpaceWriteScope.ctor])
  | some id =>
    exact key s (NativeModulePtr.module id) (SameCore.refl s) rfl (by simp [CodeSpaceWriteScope.ctor])

/-- Running a sequence that is balanced from depth `d` pops exactly the `d`
innermost live scopes, and leaves the state that destroying these `d` scopes
directly would leave, up to the ghost fields and the page permission. -/
theorem run_balanced (cfg : Config) :
    ∀ (ops : List Op) (d : Nat) (s : ThreadState) (stk : List CodeSpaceWriteScope),
      d ≤ stk.length → balanced d ops = true →
      (run cfg (s, stk) ops).2 = stk.drop d
      ∧ SameCore (run cfg (s, stk) ops).1 (unwind cfg s (stk.take d)) := by
  intro ops
  induction ops with
  | nil =>
    intro d s stk _ hb
    have hd : d = 0 := by simpa [balanced] using hb
    subst hd
    exact ⟨rfl, SameCore.refl s⟩
  | cons op ops ih =>
    intro d s stk hd hb
    cases op with
    | construct nm =>
      have hb1 : balanced (d + 1) ops = true := by simpa [balanced] using hb
      have := ih (d + 1) (CodeSpaceWriteScope.ctor cfg s nm).1
        ((CodeSpaceWriteScope.ctor cfg s nm).2 :: stk) (by simpa using hd) hb1
      refine ⟨by simpa [run, step] using this.1, ?_⟩
      have h2 : SameCore (run cfg (s, stk) (Op.construct nm :: ops)).1
          (unwind cfg (CodeSpaceWriteScope.dtor cfg (CodeSpaceWriteScope.ctor cfg s nm).1
            (CodeSpaceWriteScope.ctor cfg s nm).2) (stk.take d)) := by
        simpa [run, step, unwind] using this.2
      exact h2.trans (unwind_sameCore cfg _ (dtor_ctor_sameCore cfg s nm))
    | destroy k =>
      cases d with
      | zero => simp [balanced] at hb
      | succ d =>
        cases k with
        | succ k => simp [balanced] at hb
        | zero =>
          have hb1 : balanced d ops = true := by simpa [balanced] using hb
          cases stk with
          | nil => simp at hd
          | cons self rest =>
            have := ih d (CodeSpaceWriteScope.dtor cfg s self) rest (by simpa using hd) hb1
            exact ⟨by simpa [run, step] using this.1, by simpa [run, step, unwind] using this.2⟩

/-- A beginning of a balanced sequence is strictly LIFO. -/
theorem lifo_of_balanced_append (rest : List Op) :
    ∀ (pre : List Op) (d : Nat), balanced d (pre ++ rest) = true → lifo d pre = true := by
  intro pre
  induction pre with
  | nil => intro d _; simp [lifo]
  | cons op pre ih =>
    intro d hb
    cases op with
    | construct nm =>
      have := ih (d + 1) (by simpa [balanced] using hb)
      simpa [lifo] using this
    | destroy k =>
      cases d with
      | zero => simp [balanced] at hb
      | succ d =>
        cases k with
        | succ k => simp [balanced] at hb
        | zero =>
          have := ih d (by simpa [balanced] using hb)
          simpa [lifo] using this

/-- The invariant "current region non-null iff a scope is live" is kept by
every strictly LIFO sequence. -/
theorem run_openInv (cfg : Config) :
    ∀ (ops : List Op) (d : Nat) (m : Machine),
      d ≤ m.2.length → lifo d ops = true → OpenInv m → OpenInv (run cfg m ops) := by
  intro ops
  induction ops with
  | nil => intro d m _ _ h; exact h
  | cons op ops ih =>
    intro d m hd hl hinv
    obtain ⟨s, stk⟩ := m
    cases op with
    | construct nm =>
      refine ih (d + 1) _ (by simpa [step] using hd) (by simpa [lifo] using hl) ?_
      refine ⟨?_, ?_, hinv.2⟩
      · simp only [step, ctor_current]
        cases nm <;> simp [rewritten, GetDummyNativeModule]
      · simp only [step, ctor_previous]
        exact hinv.1
    | destroy k =>
      cases d with
      | zero => simp [lifo] at hl
      | succ d =>
        cases k with
        | succ k => simp [lifo] at hl
        | zero =>
          cases stk with
          | nil => simp at hd
          | cons self rest =>
            refine ih d _ (by simpa [step] using hd) (by simpa [lifo] using hl) ?_
            have hs : StackOk (self :: rest) := hinv.2
            refine ⟨?_, hs.2⟩
            simp only [step, List.get?_cons_zero, List.eraseIdx_cons_zero, dtor_current]
            exact hs.1

/-! ## C3 -/

/-- C3: for every configuration, every thread state `s`, whatever scopes are
already live, and every well-nested sequence of constructions and
destructions, after the sequence the live scopes are those of before and the
current region, every writer count and the nesting counter are those of `s`.
Nothing is assumed about the arguments, so this covers the sequences that pass
a null region only when `SwitchingPerNativeModule()` is false. -/
theorem C3_well_nested_sequence_restores (cfg : Config) (s : ThreadState)
    (stk : List CodeSpaceWriteScope) (ops : List Op) (h : WellNested ops) :
    (run cfg (s, stk) ops).2 = stk
    ∧ (run cfg (s, stk) ops).1.current_native_module = s.current_native_module
    ∧ (∀ r, (run cfg (s, stk) ops).1.writers_count_ r = s.writers_count_ r)
    ∧ (run cfg (s, stk) ops).1.code_space_write_nesting_level_
        = s.code_space_write_nesting_level_ := by
  obtain ⟨h1, h2, h3, h4⟩ := run_balanced cfg ops 0 s stk (Nat.zero_le _) h
  refine ⟨by simpa using h1, by simpa [unwind] using h2, ?_, by simpa [unwind] using h4⟩
  intro r
  have : (run cfg (s, stk) ops).1.writers_count_ = s.writers_count_ := by simpa [unwind] using h3
  rw [this]

/-- The scenario of the spec in degraded mode: open R1, open R2 inside it,
close R2, close R1. The writer count of R1 goes 0, 1, 1, 1, 0 and that of R2
goes 0, 0, 1, 0, 0. -/
theorem C3_well_nested_sequence_restores_witness :
    WellNested [Op.construct (some 1), Op.construct (some 2), Op.destroy 0, Op.destroy 0]
    ∧ (run degradedConfig (ThreadState.initial (fun _ => 0), [])
          [Op.construct (some 1), Op.construct (some 2), Op.destroy 0, Op.destroy 0]).1.writers_count_ 1
        = (ThreadState.initial (fun _ => 0)).writers_count_ 1
    ∧ ((run degradedConfig (ThreadState.initial (fun _ => 0), []) []).1.writers_count_ 1 = 0
      ∧ (run degradedConfig (ThreadState.initial (fun _ => 0), [])
          [Op.construct (some 1)]).1.writers_count_ 1 = 1
      ∧ (run degradedConfig (ThreadState.initial (fun _ => 0), [])
          [Op.construct (some 1), Op.construct (some 2)]).1.writers_count_ 1 = 1
      ∧ (run degradedConfig (ThreadState.initial (fun _ => 0), [])
          [Op.construct (some 1), Op.construct (some 2), Op.destroy 0]).1.writers_count_ 1 = 1
      ∧ (run degradedConfig (ThreadState.initial (fun _ => 0), [])
          [Op.construct (some 1), Op.construct (some 2), Op.destroy 0,
            Op.destroy 0]).1.writers_count_ 1 = 0)
    ∧ ((run degradedConfig (ThreadState.initial (fun _ => 0), []) []).1.writers_count_ 2 = 0
      ∧ (run degradedConfig (ThreadState.initial (fun _ => 0), [])
          [Op.construct (some 1)]).1.writers_count_ 2 = 0
      ∧ (run degradedConfig (ThreadState.initial (fun _ => 0), [])
          [Op.construct (some 1), Op.construct (some 2)]).1.writers_count_ 2 = 1
      ∧ (run degradedConfig (ThreadState.initial (fun _ => 0), [])
          [Op.construct (some 1), Op.construct (some 2), Op.destroy 0]).1.writers_count_ 2 = 0
      ∧ (run degradedConfig (ThreadState.initial (fun _ => 0), [])
          [Op.construct (some 1), Op.construct (some 2), Op.destroy 0,
            Op.destroy 0]).1.writers_count_ 2 = 0) :=
  ⟨by decide,
    (C3_well_nested_sequence_restores degradedConfig (ThreadState.initial (fun _ => 0)) []
      [Op.construct (some 1), Op.construct (some 2), Op.destroy 0, Op.destroy 0] (by decide)).2.2.1 1,
    by decide, by decide⟩

/-! ## C5 -/

/-- C5: `IsInScope()` is true exactly when the thread-local current region is
non-null; and on a thread that starts with a null current region and no live
scope, at every point of a well-nested sequence (after every beginning `pre`
of it) `IsInScope()` is true if and only if at least one scope is live. -/
theorem C5_is_in_scope_iff_scope_open :
    (∀ s : ThreadState, CodeSpaceWriteScope.IsInScope s = true
        ↔ s.current_native_module ≠ NativeModulePtr.nullptr)
    ∧ ∀ (cfg : Config) (s : ThreadState) (pre rest : List Op),
        s.current_native_module = NativeModulePtr.nullptr → WellNested (pre ++ rest) →
        (CodeSpaceWriteScope.IsInScope (run cfg (s, []) pre).1 = true
          ↔ (run cfg (s, []) pre).2 ≠ []) := by
  refine ⟨fun s => by simp [CodeSpaceWriteScope.IsInScope], ?_⟩
  intro cfg s pre rest hs hw
  have hl := lifo_of_balanced_append rest pre 0 hw
  have hinv := run_openInv cfg pre 0 (s, []) (Nat.zero_le _) hl ⟨by simp [hs], trivial⟩
  simp only [CodeSpaceWriteScope.IsInScope, bne_iff_ne, ne_eq]
  exact not_congr hinv.1

theorem C5_is_in_scope_iff_scope_open_witness :
    (ThreadState.initial (fun _ => 0)).current_native_module = NativeModulePtr.nullptr
    ∧ WellNested ([Op.construct none, Op.construct (some 4)] ++ [Op.destroy 0, Op.destroy 0])
    ∧ (CodeSpaceWriteScope.IsInScope (run pthreadConfig (ThreadState.initial (fun _ => 0), [])
          [Op.construct none, Op.construct (some 4)]).1 = true
        ↔ (run pthreadConfig (ThreadState.initial (fun _ => 0), [])
          [Op.construct none, Op.construct (some 4)]).2 ≠ []) :=
  ⟨rfl, by decide,
    C5_is_in_scope_iff_scope_open.2 pthreadConfig (ThreadState.initial (fun _ => 0))
      [Op.construct none, Op.construct (some 4)] [Op.destroy 0, Op.destroy 0] rfl (by decide)⟩

/-! ## C7 -/

/-- The destructor reaches no violated `DCHECK` when memory protection keys
are enabled only together with their flag. -/
theorem dtor_dcheck (cfg : Config)
    (hkeys : cfg.V8_HAS_PTHREAD_JIT_WRITE_PROTECT = false →
      cfg.MemoryProtectionKeysEnabled = true → cfg.FLAG_wasm_memory_protection_keys = true)
    (s : ThreadState) (self : CodeSpaceWriteScope) :
    (CodeSpaceWriteScope.dtor cfg s self).dcheck_failed = s.dcheck_failed := by
  obtain ⟨p, k, m, f, u⟩ := cfg
  unfold CodeSpaceWriteScope.dtor
  split_ifs <;> try rfl
  by_cases h0 : s.code_space_write_nesting_level_ - 1 = 0 <;>
    cases p <;> cases k <;> cases f <;> cases m <;>
    simp_all [CodeSpaceWriteScope.SetExecutable, RwxMemoryWriteScope.SetExecutable,
      Backend.set_executable, DCHECK, RemoveWriter]

/-- The constructor reaches no violated `DCHECK` unless it is handed a null
region while `SwitchingPerNativeModule()` is true. -/
theorem ctor_dcheck (cfg : Config) (s : ThreadState) (nm : Option Nat)
    (hnull : nm = none → CodeSpaceWriteScope.SwitchingPerNativeModule cfg = false) :
    (CodeSpaceWriteScope.ctor cfg s nm).1.dcheck_failed = s.dcheck_failed := by
  have hS : ∀ s : ThreadState,
      (CodeSpaceWriteScope.SetWritable cfg s).dcheck_failed = s.dcheck_failed := by
    intro s
    obtain ⟨p, k, m, f, u⟩ := cfg
    by_cases h0 : s.code_space_write_nesting_level_ = 0 <;>
      cases p <;> cases k <;> cases f <;>
      simp [CodeSpaceWriteScope.SetWritable, RwxMemoryWriteScope.SetWritable,
        Backend.set_writable, AddWriter, h0]
  cases nm with
  | none =>
    have hsw := hnull rfl
    unfold CodeSpaceWriteScope.ctor
    simp only [hsw, DCHECK, Bool.not_false, if_true]
    split_ifs <;> simp [hS]
  | some id =>
    unfold CodeSpaceWriteScope.ctor
    simp only
    split_ifs <;> simp [hS]

/-- C7, as stated, fails: in the pthread build, open a scope for region 1,
open a scope for region 2 inside it, then destroy the scope of region 1 while
that of region 2 is still live, then destroy the scope of region 2. The
sequence is not LIFO, no `DCHECK` fires in either destructor, and the thread
is left with region 1 as its current region although no scope is live. -/
theorem C7_non_lifo_destruction_counterexample :
    lifo 0 [Op.construct (some 1), Op.construct (some 2), Op.destroy 1, Op.destroy 0] = false
    ∧ (run pthreadConfig (ThreadState.initial (fun _ => 0), [])
        [Op.construct (some 1), Op.construct (some 2)]).2
        = [⟨NativeModulePtr.module 1⟩, ⟨NativeModulePtr.nullptr⟩]
    ∧ (run pthreadConfig (ThreadState.initial (fun _ => 0), [])
        [Op.construct (some 1), Op.construct (some 2), Op.destroy 1]).1.dcheck_failed = false
    ∧ (run pthreadConfig (ThreadState.initial (fun _ => 0), [])
        [Op.construct (some 1), Op.construct (some 2), Op.destroy 1, Op.destroy 0]).1.dcheck_failed
        = false
    ∧ (run pthreadConfig (ThreadState.initial (fun _ => 0), [])
        [Op.construct (some 1), Op.construct (some 2), Op.destroy 1, Op.destroy 0]).2 = []
    ∧ (run pthreadConfig (ThreadState.initial (fun _ => 0), [])
        [Op.construct (some 1), Op.construct (some 2), Op.destroy 1,
          Op.destroy 0]).1.current_native_module = NativeModulePtr.module 1 := by
  decide

/-- C7, amended: in the pthread build, and in a build without it when memory
protection keys are not enabled and `FLAG_wasm_write_protect_code_memory` is
unset, destroying region scopes in non-LIFO order is not detected: for every
sequence of `CodeSpaceWriteScope` constructions and destructions on one
thread, in whatever order (so also when a scope is destroyed while a scope
constructed after it is still open), no `DCHECK` of `code-space-access.cc`
fires, and every destructor, in every thread state, leaves its captured
previous region as the current region. -/
theorem C7_destruction_order_not_checked (cfg : Config)
    (h : cfg.V8_HAS_PTHREAD_JIT_WRITE_PROTECT = true
      ∨ (cfg.MemoryProtectionKeysEnabled = false
          ∧ cfg.FLAG_wasm_write_protect_code_memory = false)) :
    (∀ (s : ThreadState) (self : CodeSpaceWriteScope),
      (CodeSpaceWriteScope.dtor cfg s self).dcheck_failed = s.dcheck_failed
      ∧ (CodeSpaceWriteScope.dtor cfg s self).current_native_module
          = self.previous_native_module_)
    ∧ ∀ (ops : List Op) (m : Machine),
        (run cfg m ops).1.dcheck_failed = m.1.dcheck_failed := by
  have hkeys : cfg.V8_HAS_PTHREAD_JIT_WRITE_PROTECT = false →
      cfg.MemoryProtectionKeysEnabled = true → cfg.FLAG_wasm_memory_protection_keys = true := by
    intro hp hk
    rcases h with h | h
    · rw [h] at hp; cases hp
    · rw [h.1] at hk; cases hk
  have hsw : CodeSpaceWriteScope.SwitchingPerNativeModule cfg = false := by
    rcases h with h | h
    · exact (not_switching_iff cfg).2 (Or.inl h)
    · exact (not_switching_iff cfg).2 (Or.inr (Or.inr h.2))
  refine ⟨fun s self => ⟨dtor_dcheck cfg hkeys s self, dtor_current cfg s self⟩, ?_⟩
  intro ops
  induction ops with
  | nil => intro m; rfl
  | cons op ops ih =>
    intro m
    show (run cfg (step cfg m op) ops).1.dcheck_failed = m.1.dcheck_failed
    rw [ih (step cfg m op)]
    cases op with
    | construct nm => exact ctor_dcheck cfg m.1 nm (fun _ => hsw)
    | destroy k =>
      simp only [step]
      cases hget : m.2.get? k with
      | none => rfl
      | some self => exact dtor_dcheck cfg hkeys m.1 self

/-- In the pthread build: a scope with a null region, a scope for region 2
inside it, then the outer scope destroyed before the inner one. -/
theorem C7_destruction_order_not_checked_witness :
    (pthreadConfig.V8_HAS_PTHREAD_JIT_WRITE_PROTECT = true
      ∨ (pthreadConfig.MemoryProtectionKeysEnabled = false
          ∧ pthreadConfig.FLAG_wasm_write_protect_code_memory = false))
    ∧ lifo 0 [Op.construct none, Op.construct (some 2), Op.destroy 1, Op.destroy 0] = false
    ∧ (run pthreadConfig (ThreadState.initial (fun _ => 0), [])
        [Op.construct none, Op.construct (some 2), Op.destroy 1, Op.destroy 0]).1.dcheck_failed
        = (ThreadState.initial (fun _ => 0)).dcheck_failed :=
  ⟨by decide, by decide,
    (C7_destruction_order_not_checked pthreadConfig (by decide)).2
      [Op.construct none, Op.construct (some 2), Op.destroy 1, Op.destroy 0]
      (ThreadState.initial (fun _ => 0), [])⟩

/-! ## C10 -/

/-- Entering the global scope. -/
theorem rwx_ctor_effect (cfg : Config) (s : ThreadState) :
    (RwxMemoryWriteScope.ctor cfg s).code_space_write_nesting_level_
        = s.code_space_write_nesting_level_ + 1
    ∧ backendCalls (RwxMemoryWriteScope.ctor cfg s).trace
        = backendCalls s.trace
          ++ (if s.code_space_write_nesting_level_ = 0 then [Call.BackendSetWritable] else [])
    ∧ (RwxMemoryWriteScope.ctor cfg s).writable
        = (if s.code_space_write_nesting_level_ = 0 ∧ cfg.IsSupported = true then true
            else s.writable) := by
  by_cases h0 : s.code_space_write_nesting_level_ = 0 <;>
    cases hs : cfg.IsSupported <;>
    simp [RwxMemoryWriteScope.ctor, RwxMemoryWriteScope.SetWritable, Backend.set_writable,
      backendCalls, Call.isBackendCall, List.filter_append, h0, hs]

/-- Leaving the global scope. -/
theorem rwx_dtor_effect (cfg : Config) (s : ThreadState) :
    (RwxMemoryWriteScope.dtor cfg s).code_space_write_nesting_level_
        = s.code_space_write_nesting_level_ - 1
    ∧ backendCalls (RwxMemoryWriteScope.dtor cfg s).trace
        = backendCalls s.trace
          ++ (if s.code_space_write_nesting_level_ = 1 then [Call.BackendSetExecutable] else [])
    ∧ (RwxMemoryWriteScope.dtor cfg s).writable
        = (if s.code_space_write_nesting_level_ = 1 ∧ cfg.IsSupported = true then false
            else s.writable) := by
  have e : s.code_space_write_nesting_level_ - 1 = 0 ↔ s.code_space_write_nesting_level_ = 1 := by
    omega
  by_cases h1 : s.code_space_write_nesting_level_ = 1 <;>
    cases hs : cfg.IsSupported <;>
    simp [RwxMemoryWriteScope.dtor, RwxMemoryWriteScope.SetExecutable, Backend.set_executable,
      backendCalls, Call.isBackendCall, List.filter_append, e, h1, hs]

/-- The nesting counter follows the number of live global scopes. -/
theorem rwxRun_level (cfg : Config) :
    ∀ (ops : List RwxOp) (s : ThreadState),
      (rwxRun cfg s ops).code_space_write_nesting_level_
        = s.code_space_write_nesting_level_ + (ops.count RwxOp.enter : Int)
            - (ops.count RwxOp.leave : Int) := by
  intro ops
  induction ops with
  | nil => intro s; simp [rwxRun]
  | cons op ops ih =>
    intro s
    cases op with
    | enter =>
      simp only [rwxRun, rwxStep, ih, (rwx_ctor_effect cfg s).1, List.count_cons_self,
        List.count_cons_of_ne (by decide : RwxOp.leave ≠ RwxOp.enter)]
      push_cast; ring
    | leave =>
      simp only [rwxRun, rwxStep, ih, (rwx_dtor_effect cfg s).1, List.count_cons_self,
        List.count_cons_of_ne (by decide : RwxOp.enter ≠ RwxOp.leave)]
      push_cast; ring

/-- While the depth stays above zero no backend primitive is called. -/
theorem rwxRun_inner (cfg : Config) :
    ∀ (ops : List RwxOp) (d : Nat) (s : ThreadState),
      rwxBalanced d ops = true → (d : Int) < s.code_space_write_nesting_level_ →
      backendCalls (rwxRun cfg s ops).trace = backendCalls s.trace
      ∧ (rwxRun cfg s ops).code_space_write_nesting_level_
          = s.code_space_write_nesting_level_ - d := by
  intro ops
  induction ops with
  | nil =>
    intro d s hb _
    have hd : d = 0 := by simpa [rwxBalanced] using hb
    subst hd
    simp [rwxRun]
  | cons op ops ih =>
    intro d s hb hlt
    cases op with
    | enter =>
      obtain ⟨e1, e2, _⟩ := rwx_ctor_effect cfg s
      have hne : ¬ s.code_space_write_nesting_level_ = 0 := by omega
      obtain ⟨i1, i2⟩ := ih (d + 1) (RwxMemoryWriteScope.ctor cfg s)
        (by simpa [rwxBalanced] using hb) (by rw [e1]; push_cast; omega)
      refine ⟨?_, ?_⟩
      · show backendCalls (rwxRun cfg (RwxMemoryWriteScope.ctor cfg s) ops).trace = _
        rw [i1, e2, if_neg hne, List.append_nil]
      · show (rwxRun cfg (RwxMemoryWriteScope.ctor cfg s) ops).code_space_write_nesting_level_ = _
        rw [i2, e1]; push_cast; ring
    | leave =>
      cases d with
      | zero => simp [rwxBalanced] at hb
      | succ d =>
        obtain ⟨e1, e2, _⟩ := rwx_dtor_effect cfg s
        have hne : ¬ s.code_space_write_nesting_level_ = 1 := by push_cast at hlt; omega
        obtain ⟨i1, i2⟩ := ih d (RwxMemoryWriteScope.dtor cfg s)
          (by simpa [rwxBalanced] using hb) (by rw [e1]; push_cast at hlt; omega)
        refine ⟨?_, ?_⟩
        · show backendCalls (rwxRun cfg (RwxMemoryWriteScope.dtor cfg s) ops).trace = _
          rw [i1, e2, if_neg hne, List.append_nil]
        · show (rwxRun cfg (RwxMemoryWriteScope.dtor cfg s) ops).code_space_write_nesting_level_ = _
          rw [i2, e1]; push_cast; ring

theorem rwxRun_append (cfg : Config) :
    ∀ (xs ys : List RwxOp) (s : ThreadState),
      rwxRun cfg s (xs ++ ys) = rwxRun cfg (rwxRun cfg s xs) ys := by
  intro xs
  induction xs with
  | nil => intro ys s; rfl
  | cons x xs ih => intro ys s; exact ih ys (rwxStep cfg s x)

theorem rwxLifo_of_balanced_append (rest : List RwxOp) :
    ∀ (pre : List RwxOp) (d : Nat), rwxBalanced d (pre ++ rest) = true → rwxLifo d pre = true := by
  intro pre
  induction pre with
  | nil => intro d _; simp [rwxLifo]
  | cons op pre ih =>
    intro d hb
    cases op with
    | enter =>
      have := ih (d + 1) (by simpa [rwxBalanced] using hb)
      simpa [rwxLifo] using this
    | leave =>
      cases d with
      | zero => simp [rwxBalanced] at hb
      | succ d =>
        have := ih d (by simpa [rwxBalanced] using hb)
        simpa [rwxLifo] using this

/-- On a backend with hardware support the pages are writable exactly while
the nesting counter is positive. -/
theorem rwxRun_writable (cfg : Config) (hsup : cfg.IsSupported = true) :
    ∀ (ops : List RwxOp) (d : Nat) (s : ThreadState),
      rwxLifo d ops = true → s.code_space_write_nesting_level_ = d →
      (s.writable = true ↔ 0 < s.code_space_write_nesting_level_) →
      ((rwxRun cfg s ops).writable = true
        ↔ 0 < (rwxRun cfg s ops).code_space_write_nesting_level_) := by
  intro ops
  induction ops with
  | nil => intro d s _ _ h; exact h
  | cons op ops ih =>
    intro d s hl hd hinv
    cases op with
    | enter =>
      obtain ⟨e1, _, e3⟩ := rwx_ctor_effect cfg s
      refine ih (d + 1) (RwxMemoryWriteScope.ctor cfg s) (by simpa [rwxLifo] using hl)
        (by rw [e1, hd]; push_cast; ring) ?_
      rw [e1, e3]
      by_cases h0 : s.code_space_write_nesting_level_ = 0
      · simp [h0, hsup]
      · simp only [h0, false_and, if_false]
        rw [hinv]; omega
    | leave =>
      cases d with
      | zero => simp [rwxLifo] at hl
      | succ d =>
        obtain ⟨e1, _, e3⟩ := rwx_dtor_effect cfg s
        refine ih d (RwxMemoryWriteScope.dtor cfg s) (by simpa [rwxLifo] using hl)
          (by rw [e1, hd]; push_cast; ring) ?_
        rw [e1, e3]
        by_cases h1 : s.code_space_write_nesting_level_ = 1
        · simp [h1, hsup]
        · simp only [h1, false_and, if_false]
          rw [hinv]; push_cast at hd; omega

/-- On a backend without hardware support the primitives are no-ops: the
page permission never changes. -/
theorem rwxRun_writable_unsupported (cfg : Config) (hsup : cfg.IsSupported = false) :
    ∀ (ops : List RwxOp) (s : ThreadState), (rwxRun cfg s ops).writable = s.writable := by
  intro ops
  induction ops with
  | nil => intro s; rfl
  | cons op ops ih =>
    intro s
    show (rwxRun cfg (rwxStep cfg s op) ops).writable = s.writable
    rw [ih]
    cases op with
    | enter => simp [rwxStep, (rwx_ctor_effect cfg s).2.2, hsup]
    | leave => simp [rwxStep, (rwx_dtor_effect cfg s).2.2, hsup]

/-- C11: for every thread state, constructing and then destroying a
`ResetPKUPermissionsForThreadSpawning` guard gives back the state of entry.
If the thread was not writable on entry, neither the construction nor the
destruction changes anything. If it was writable on entry, with the
protection-key backend compiled in and supported, the state is non-writable
while the guard is alive, nothing else is changed, and the state is writable
again after the destruction. When the protection-key backend is not compiled
in, or is unsupported, construction and destruction are no-ops. -/
theorem C11_thread_spawn_guard_round_trip (pku : Bool) (cfg : Config) (s : ThreadState) :
    ResetPKUPermissionsForThreadSpawning.dtor pku cfg
        (ResetPKUPermissionsForThreadSpawning.ctor pku cfg s).1
        (ResetPKUPermissionsForThreadSpawning.ctor pku cfg s).2 = s
    ∧ (s.writable = false →
        (ResetPKUPermissionsForThreadSpawning.ctor pku cfg s).1 = s
        ∧ ∀ s2 : ThreadState, ResetPKUPermissionsForThreadSpawning.dtor pku cfg s2
            (ResetPKUPermissionsForThreadSpawning.ctor pku cfg s).2 = s2)
    ∧ (pku = true → cfg.IsSupported = true → s.writable = true →
        (ResetPKUPermissionsForThreadSpawning.ctor pku cfg s).1 = { s with writable := false }
        ∧ (ResetPKUPermissionsForThreadSpawning.ctor pku cfg s).1.writable = false
        ∧ (ResetPKUPermissionsForThreadSpawning.dtor pku cfg
            (ResetPKUPermissionsForThreadSpawning.ctor pku cfg s).1
            (ResetPKUPermissionsForThreadSpawning.ctor pku cfg s).2).writable = true)
    ∧ ((pku = false ∨ cfg.IsSupported = false) →
        (ResetPKUPermissionsForThreadSpawning.ctor pku cfg s).1 = s
        ∧ ∀ (s2 : ThreadState) (self : ResetPKUPermissionsForThreadSpawning),
            ResetPKUPermissionsForThreadSpawning.dtor pku cfg s2 self = s2) := by
  obtain ⟨c, l, w, wr, tr, d⟩ := s
  refine ⟨?_, ?_, ?_, ?_⟩
  · cases pku <;> cases hs : cfg.IsSupported <;> cases w <;>
      simp [ResetPKUPermissionsForThreadSpawning.ctor, ResetPKUPermissionsForThreadSpawning.dtor, hs]
  · intro hw
    simp only at hw
    subst hw
    cases pku <;> cases hs : cfg.IsSupported <;>
      simp [ResetPKUPermissionsForThreadSpawning.ctor, ResetPKUPermissionsForThreadSpawning.dtor, hs]
  · intro hp hs hw
    simp only at hw
    subst hp hw
    simp [ResetPKUPermissionsForThreadSpawning.ctor, ResetPKUPermissionsForThreadSpawning.dtor, hs]
  · intro h
    rcases h with h | h
    · subst h
      simp [ResetPKUPermissionsForThreadSpawning.ctor, ResetPKUPermissionsForThreadSpawning.dtor]
    · cases pku <;>
        simp [ResetPKUPermissionsForThreadSpawning.ctor, ResetPKUPermissionsForThreadSpawning.dtor, h]

/-- A guard entered inside a global write scope with the protection-key
backend: writable on entry, non-writable while the guard is alive, writable
again after it. -/
theorem C11_thread_spawn_guard_round_trip_witness :
    (RwxMemoryWriteScope.ctor pkuConfig (ThreadState.initial (fun _ => 0))).writable = true
    ∧ (ResetPKUPermissionsForThreadSpawning.ctor true pkuConfig
        (RwxMemoryWriteScope.ctor pkuConfig (ThreadState.initial (fun _ => 0)))).1.writable = false
    ∧ (ResetPKUPermissionsForThreadSpawning.dtor true pkuConfig
        (ResetPKUPermissionsForThreadSpawning.ctor true pkuConfig
          (RwxMemoryWriteScope.ctor pkuConfig (ThreadState.initial (fun _ => 0)))).1
        (ResetPKUPermissionsForThreadSpawning.ctor true pkuConfig
          (RwxMemoryWriteScope.ctor pkuConfig (ThreadState.initial (fun _ => 0)))).2).writable
        = true :=
  ⟨by decide,
    ((C11_thread_spawn_guard_round_trip true pkuConfig
      (RwxMemoryWriteScope.ctor pkuConfig (ThreadState.initial (fun _ => 0)))).2.2.1
        rfl (by decide) (by decide)).2.1,
    ((C11_thread_spawn_guard_round_trip true pkuConfig
      (RwxMemoryWriteScope.ctor pkuConfig (ThreadState.initial (fun _ => 0)))).2.2.1
        rfl (by decide) (by decide)).2.2⟩

/-! ## The calls of one constructor or destructor -/

theorem setWritable_trace (cfg : Config) (s : ThreadState) :
    (CodeSpaceWriteScope.SetWritable cfg s).trace
      = s.trace ++ enterCalls cfg s.code_space_write_nesting_level_ s.current_native_module := by
  obtain ⟨p, k, m, f, u⟩ := cfg
  by_cases h0 : s.code_space_write_nesting_level_ = 0 <;>
    cases p <;> cases k <;> cases f <;>
    simp [CodeSpaceWriteScope.SetWritable, RwxMemoryWriteScope.SetWritable,
      Backend.set_writable, AddWriter, enterCalls, Config.fast, h0]

theorem setExecutable_trace (cfg : Config) (s : ThreadState) :
    (CodeSpaceWriteScope.SetExecutable cfg s).trace
      = s.trace ++ leaveCalls cfg s.code_space_write_nesting_level_ s.current_native_module := by
  obtain ⟨p, k, m, f, u⟩ := cfg
  have e : s.code_space_write_nesting_level_ - 1 = 0 ↔ s.code_space_write_nesting_level_ = 1 := by
    omega
  by_cases h1 : s.code_space_write_nesting_level_ = 1 <;>
    cases p <;> cases k <;> cases f <;> cases m <;>
    simp [CodeSpaceWriteScope.SetExecutable, RwxMemoryWriteScope.SetExecutable,
      Backend.set_executable, RemoveWriter, DCHECK, leaveCalls, Config.fast, e, h1]

/-- The trace after the constructor. -/
theorem ctor_trace (cfg : Config) (s : ThreadState) (nm : Option Nat) :
    (CodeSpaceWriteScope.ctor cfg s nm).1.trace = s.trace ++ ctorCalls cfg s nm := by
  have key : ∀ (s1 : ThreadState), s1.trace = s.trace →
      s1.code_space_write_nesting_level_ = s.code_space_write_nesting_level_ →
      (if s.current_native_module = rewritten nm then (s1, (⟨s.current_native_module⟩ : CodeSpaceWriteScope))
        else if s.current_native_module = .nullptr
            || CodeSpaceWriteScope.SwitchingPerNativeModule cfg then
          (CodeSpaceWriteScope.SetWritable cfg { s1 with
            current_native_module := rewritten nm
            trace := s1.trace ++ [Call.SetCurrent (rewritten nm)] }, ⟨s.current_native_module⟩)
        else ({ s1 with
            current_native_module := rewritten nm
            trace := s1.trace ++ [Call.SetCurrent (rewritten nm)] },
            ⟨s.current_native_module⟩)).1.trace = s.trace ++ ctorCalls cfg s nm := by
    intro s1 ht hl
    unfold ctorCalls
    split_ifs with hc hn
    · simp [ht]
    · simp [setWritable_trace, ht, hl]
    · simp [ht]
  cases nm with
  | none =>
    have := key (DCHECK (!CodeSpaceWriteScope.SwitchingPerNativeModule cfg) s)
      (by cases CodeSpaceWriteScope.SwitchingPerNativeModule cfg <;> simp [DCHECK])
      (by cases CodeSpaceWriteScope.SwitchingPerNativeModule cfg <;> simp [DCHECK])
    simpa [CodeSpaceWriteScope.ctor, rewritten] using this
  | some id =>
    have := key s rfl rfl
    simpa [CodeSpaceWriteScope.ctor, rewritten] using this

/-- The trace after the destructor. -/
theorem dtor_trace (cfg : Config) (s : ThreadState) (self : CodeSpaceWriteScope) :
    (CodeSpaceWriteScope.dtor cfg s self).trace = s.trace ++ dtorCalls cfg s self := by
  unfold CodeSpaceWriteScope.dtor dtorCalls
  split_ifs with hc hn
  · simp
  · simp [setExecutable_trace]
  · simp

theorem enterCalls_toggle (cfg : Config) (l : Int) (p : NativeModulePtr) :
    (∃ x ∈ enterCalls cfg l p, x.isEnterToggle = true)
      ↔ (cfg.fast = true ∨ cfg.FLAG_wasm_write_protect_code_memory = true) := by
  by_cases h0 : l = 0 <;>
    cases hf : cfg.fast <;> cases hw : cfg.FLAG_wasm_write_protect_code_memory <;>
    simp [enterCalls, hf, hw, h0, Call.isEnterToggle]

theorem leaveCalls_toggle (cfg : Config) (l : Int) (p : NativeModulePtr) :
    (∃ x ∈ leaveCalls cfg l p, x.isLeaveToggle = true)
      ↔ (cfg.fast = true ∨ cfg.FLAG_wasm_write_protect_code_memory = true) := by
  by_cases h1 : l = 1 <;>
    cases hf : cfg.fast <;> cases hw : cfg.FLAG_wasm_write_protect_code_memory <;>
    simp [leaveCalls, hf, hw, h1, Call.isLeaveToggle]

theorem enterCalls_addWriter (cfg : Config) (l : Int) (p q : NativeModulePtr) :
    Call.AddWriter q ∈ enterCalls cfg l p
      ↔ (cfg.fast = false ∧ cfg.FLAG_wasm_write_protect_code_memory = true ∧ q = p) := by
  by_cases h0 : l = 0 <;>
    cases hf : cfg.fast <;> cases hw : cfg.FLAG_wasm_write_protect_code_memory <;>
    simp [enterCalls, hf, hw, h0]

theorem leaveCalls_removeWriter (cfg : Config) (l : Int) (p q : NativeModulePtr) :
    Call.RemoveWriter q ∈ leaveCalls cfg l p
      ↔ (cfg.fast = false ∧ cfg.FLAG_wasm_write_protect_code_memory = true ∧ q = p) := by
  by_cases h1 : l = 1 <;>
    cases hf : cfg.fast <;> cases hw : cfg.FLAG_wasm_write_protect_code_memory <;>
    simp [leaveCalls, hf, hw, h1]

theorem leaveCalls_not_setCurrent (cfg : Config) (l : Int) (p : NativeModulePtr) :
    ∀ y ∈ leaveCalls cfg l p, y.isSetCurrent = false := by
  by_cases h1 : l = 1 <;>
    cases hf : cfg.fast <;> cases hw : cfg.FLAG_wasm_write_protect_code_memory <;>
    simp [leaveCalls, hf, hw, h1, Call.isSetCurrent]

/-! ## C12 -/

/-- The body of a scope: after the constructor and a well-nested body, the
innermost live scope is the constructed one and the core of the state is that
of right after the constructor. -/
theorem run_body (cfg : Config) (s : ThreadState) (stk : List CodeSpaceWriteScope)
    (nm : Option Nat) (body : List Op) (hb : WellNested body) :
    (run cfg ((CodeSpaceWriteScope.ctor cfg s nm).1, (CodeSpaceWriteScope.ctor cfg s nm).2 :: stk)
        body).2 = (CodeSpaceWriteScope.ctor cfg s nm).2 :: stk
    ∧ SameCore (run cfg ((CodeSpaceWriteScope.ctor cfg s nm).1,
        (CodeSpaceWriteScope.ctor cfg s nm).2 :: stk) body).1 (CodeSpaceWriteScope.ctor cfg s nm).1 := by
  have := run_balanced cfg body 0 (CodeSpaceWriteScope.ctor cfg s nm).1
    ((CodeSpaceWriteScope.ctor cfg s nm).2 :: stk) (Nat.zero_le _) hb
  exact ⟨by simpa using this.1, by simpa [unwind] using this.2⟩

/-- C12: teardown is symmetric under LIFO use. For every configuration,
every state `s`, every constructor argument and every well-nested body run
between the constructor and its destructor: the scope that the next
destruction destroys is the constructed one and the current region is still
the one the constructor installed; writing `enter` for the calls the
constructor added to the trace and `leave` for those the destructor adds, the
destructor makes a leaving toggle call (`RwxMemoryWriteScope::SetExecutable`
or `RemoveWriter`) if and only if the constructor made an entering toggle call
(`RwxMemoryWriteScope::SetWritable` or `AddWriter`); every call of the
destructor's toggle comes before the `Set` that restores the current region
to previous, which is the last call; `RemoveWriter` is applied to exactly the
region `AddWriter` was applied to, the region of the scope. A destructor whose
captured previous equals the current region changes nothing. -/
theorem C12_teardown_symmetric (cfg : Config) (s : ThreadState)
    (stk : List CodeSpaceWriteScope) (nm : Option Nat) (body : List Op) (hb : WellNested body) :
    (run cfg ((CodeSpaceWriteScope.ctor cfg s nm).1, (CodeSpaceWriteScope.ctor cfg s nm).2 :: stk)
        body).2 = (CodeSpaceWriteScope.ctor cfg s nm).2 :: stk
    ∧ (run cfg ((CodeSpaceWriteScope.ctor cfg s nm).1, (CodeSpaceWriteScope.ctor cfg s nm).2 :: stk)
        body).1.current_native_module = rewritten nm
    ∧ (∃ enter leave : List Call,
        (CodeSpaceWriteScope.ctor cfg s nm).1.trace = s.trace ++ enter
        ∧ (CodeSpaceWriteScope.dtor cfg
            (run cfg ((CodeSpaceWriteScope.ctor cfg s nm).1,
              (CodeSpaceWriteScope.ctor cfg s nm).2 :: stk) body).1
            (CodeSpaceWriteScope.ctor cfg s nm).2).trace
          = (run cfg ((CodeSpaceWriteScope.ctor cfg s nm).1,
              (CodeSpaceWriteScope.ctor cfg s nm).2 :: stk) body).1.trace ++ leave
        ∧ ((∃ x ∈ enter, x.isEnterToggle = true) ↔ (∃ y ∈ leave, y.isLeaveToggle = true))
        ∧ (leave = [] ∨ ∃ tog, leave
              = tog ++ [Call.SetCurrent (CodeSpaceWriteScope.ctor cfg s nm).2.previous_native_module_]
            ∧ ∀ y ∈ tog, y.isSetCurrent = false)
        ∧ (∀ p, Call.AddWriter p ∈ enter ↔ Call.RemoveWriter p ∈ leave)
        ∧ (∀ p, Call.RemoveWriter p ∈ leave → p = rewritten nm))
    ∧ ∀ (s2 : ThreadState) (self : CodeSpaceWriteScope),
        self.previous_native_module_ = s2.current_native_module →
        CodeSpaceWriteScope.dtor cfg s2 self = s2 := by
  obtain ⟨hstk, hcore⟩ := run_body cfg s stk nm body hb
  have hcur := hcore.1.trans (ctor_current cfg s nm)
  have hprev := ctor_previous cfg s nm
  refine ⟨hstk, hcur, ⟨ctorCalls cfg s nm, dtorCalls cfg _ _, ctor_trace cfg s nm,
    dtor_trace cfg _ _, ?_⟩, ?_⟩
  · generalize (run cfg ((CodeSpaceWriteScope.ctor cfg s nm).1,
      (CodeSpaceWriteScope.ctor cfg s nm).2 :: stk) body).1 = t at hcur ⊢
    unfold ctorCalls dtorCalls
    rw [hprev, hcur]
    by_cases hc : s.current_native_module = rewritten nm
    · simp [hc]
    · simp only [hc, if_false]
      by_cases hn : (s.current_native_module = .nullptr
          || CodeSpaceWriteScope.SwitchingPerNativeModule cfg) = true
      · simp only [hn, if_true]
        refine ⟨?_, Or.inr ⟨_, rfl, leaveCalls_not_setCurrent cfg _ _⟩, ?_, ?_⟩
        · have e1 := enterCalls_toggle cfg s.code_space_write_nesting_level_ (rewritten nm)
          have e2 := leaveCalls_toggle cfg t.code_space_write_nesting_level_ (rewritten nm)
          constructor
          · rintro ⟨x, hx, hxt⟩
            rcases List.mem_cons.1 hx with hx | hx
            · subst hx; simp [Call.isEnterToggle] at hxt
            · obtain ⟨y, hy, hyt⟩ := e2.2 (e1.1 ⟨x, hx, hxt⟩)
              exact ⟨y, List.mem_append_left _ hy, hyt⟩
          · rintro ⟨y, hy, hyt⟩
            rcases List.mem_append.1 hy with hy | hy
            · obtain ⟨x, hx, hxt⟩ := e1.2 (e2.1 ⟨y, hy, hyt⟩)
              exact ⟨x, List.mem_cons_of_mem _ hx, hxt⟩
            · rw [List.mem_singleton.1 hy] at hyt; simp [Call.isLeaveToggle] at hyt
        · intro p
          simp [enterCalls_addWriter, leaveCalls_removeWriter]
        · intro p hp
          simp only [List.mem_append, List.mem_singleton, leaveCalls_removeWriter] at hp
          rcases hp with hp | hp
          · exact hp.2.2
          · cases hp
      · simp only [hn]
        simp [Call.isEnterToggle, Call.isLeaveToggle, Call.isSetCurrent]
  · intro s2 self h
    simp [CodeSpaceWriteScope.dtor, h]

/-- In degraded mode: a scope for region 1 on a fresh thread, with a scope for
region 2 opened and closed inside it. The constructor adds `AddWriter` on
region 1 and the destructor adds `RemoveWriter` on region 1 before it restores
the null current region. -/
theorem C12_teardown_symmetric_witness :
    WellNested [Op.construct (some 2), Op.destroy 0]
    ∧ (run degradedConfig ((CodeSpaceWriteScope.ctor degradedConfig
          (ThreadState.initial (fun _ => 0)) (some 1)).1,
        [(CodeSpaceWriteScope.ctor degradedConfig (ThreadState.initial (fun _ => 0)) (some 1)).2])
        [Op.construct (some 2), Op.destroy 0]).1.current_native_module = rewritten (some 1)
    ∧ (CodeSpaceWriteScope.ctor degradedConfig (ThreadState.initial (fun _ => 0)) (some 1)).1.trace
        = [Call.SetCurrent (NativeModulePtr.module 1), Call.AddWriter (NativeModulePtr.module 1)]
    ∧ (CodeSpaceWriteScope.dtor degradedConfig
        (run degradedConfig ((CodeSpaceWriteScope.ctor degradedConfig
          (ThreadState.initial (fun _ => 0)) (some 1)).1,
        [(CodeSpaceWriteScope.ctor degradedConfig (ThreadState.initial (fun _ => 0)) (some 1)).2])
        [Op.construct (some 2), Op.destroy 0]).1
        (CodeSpaceWriteScope.ctor degradedConfig (ThreadState.initial (fun _ => 0)) (some 1)).2).trace
        = [Call.SetCurrent (NativeModulePtr.module 1), Call.AddWriter (NativeModulePtr.module 1),
            Call.SetCurrent (NativeModulePtr.module 2), Call.AddWriter (NativeModulePtr.module 2),
            Call.RemoveWriter (NativeModulePtr.module 2), Call.SetCurrent (NativeModulePtr.module 1),
            Call.RemoveWriter (NativeModulePtr.module 1), Call.SetCurrent NativeModulePtr.nullptr] :=
  ⟨by decide,
    (C12_teardown_symmetric degradedConfig (ThreadState.initial (fun _ => 0)) [] (some 1)
      [Op.construct (some 2), Op.destroy 0] (by decide)).2.1,
    by decide, by decide⟩

/-! ## C13 -/

theorem fast_not_switching (cfg : Config) (h : cfg.fast = true) :
    CodeSpaceWriteScope.SwitchingPerNativeModule cfg = false := by
  obtain ⟨p, k, m, f, u⟩ := cfg
  cases p <;> cases k <;> simp_all [Config.fast, CodeSpaceWriteScope.SwitchingPerNativeModule]

/-- With the fast backend the constructor enters the global scope exactly when
no region scope is open. -/
theorem ctor_fast (cfg : Config) (h : cfg.fast = true) (s : ThreadState) (nm : Option Nat) :
    rwxScopeCalls (CodeSpaceWriteScope.ctor cfg s nm).1.trace
        = rwxScopeCalls s.trace
          ++ (if s.current_native_module = NativeModulePtr.nullptr then [Call.RwxSetWritable]
              else [])
    ∧ (CodeSpaceWriteScope.ctor cfg s nm).1.code_space_write_nesting_level_
        = s.code_space_write_nesting_level_
          + (if s.current_native_module = NativeModulePtr.nullptr then 1 else 0) := by
  have hsw := fast_not_switching cfg h
  have hr : rewritten nm ≠ NativeModulePtr.nullptr := by
    cases nm <;> simp [rewritten, GetDummyNativeModule]
  constructor
  · rw [ctor_trace]
    unfold ctorCalls rwxScopeCalls
    by_cases hn : s.current_native_module = NativeModulePtr.nullptr
    · have hc : ¬ NativeModulePtr.nullptr = rewritten nm := fun e => hr e.symm
      by_cases h0 : s.code_space_write_nesting_level_ = 0 <;>
        simp [hc, hn, hsw, enterCalls, h, h0, List.filter_append, List.filter_cons,
          Call.isRwxScopeCall]
    · by_cases hc : s.current_native_module = rewritten nm
      · simp [hc, hr]
      · simp [hc, hn, hsw, List.filter_append, List.filter_cons, Call.isRwxScopeCall]
  · obtain ⟨p, k, m, f, u⟩ := cfg
    cases nm <;>
      by_cases hn : s.current_native_module = NativeModulePtr.nullptr <;>
      by_cases h0 : s.code_space_write_nesting_level_ = 0 <;>
      cases p <;> cases k <;> cases f <;>
      simp_all [CodeSpaceWriteScope.ctor, GetDummyNativeModule, DCHECK, Config.fast,
        CodeSpaceWriteScope.SwitchingPerNativeModule, CodeSpaceWriteScope.SetWritable,
        RwxMemoryWriteScope.SetWritable, Backend.set_writable] <;>
      split_ifs <;> simp_all

/-- With the fast backend the destructor leaves the global scope exactly when
its captured previous region is null and differs from the current one. -/
theorem dtor_fast (cfg : Config) (h : cfg.fast = true) (s : ThreadState)
    (self : CodeSpaceWriteScope) :
    rwxScopeCalls (CodeSpaceWriteScope.dtor cfg s self).trace
        = rwxScopeCalls s.trace
          ++ (if self.previous_native_module_ = NativeModulePtr.nullptr
                ∧ s.current_native_module ≠ NativeModulePtr.nullptr then [Call.RwxSetExecutable]
              else [])
    ∧ (CodeSpaceWriteScope.dtor cfg s self).code_space_write_nesting_level_
        = s.code_space_write_nesting_level_
          - (if self.previous_native_module_ = NativeModulePtr.nullptr
                ∧ s.current_native_module ≠ NativeModulePtr.nullptr then 1 else 0) := by
  have hsw := fast_not_switching cfg h
  constructor
  · rw [dtor_trace]
    unfold dtorCalls rwxScopeCalls
    by_cases hp : self.previous_native_module_ = NativeModulePtr.nullptr
    · by_cases hc : s.current_native_module = NativeModulePtr.nullptr
      · simp [hp, hc]
      · have hc2 : ¬ NativeModulePtr.nullptr = s.current_native_module := fun e => hc e.symm
        by_cases h1 : s.code_space_write_nesting_level_ = 1 <;>
          simp [hp, hc, hc2, leaveCalls, h, h1, List.filter_append, List.filter_cons,
            Call.isRwxScopeCall]
    · by_cases hc : self.previous_native_module_ = s.current_native_module <;>
        simp [hp, hc, hsw, List.filter_append, List.filter_cons, Call.isRwxScopeCall]
  · unfold CodeSpaceWriteScope.dtor
    by_cases hp : self.previous_native_module_ = NativeModulePtr.nullptr
    · by_cases hc : s.current_native_module = NativeModulePtr.nullptr
      · simp [hp, hc]
      · have hc2 : ¬ NativeModulePtr.nullptr = s.current_native_module := fun e => hc e.symm
        obtain ⟨p, k, m, f, u⟩ := cfg
        by_cases h1 : s.code_space_write_nesting_level_ - 1 = 0 <;>
          cases p <;> cases k <;> cases m <;>
          simp_all [Config.fast, CodeSpaceWriteScope.SetExecutable,
            RwxMemoryWriteScope.SetExecutable, Backend.set_executable, DCHECK]
    · by_cases hc : self.previous_native_module_ = s.current_native_module <;>
        simp [hp, hc, hsw]

/-- The depth reached by a beginning of a balanced sequence is the number of
scopes it has left live. -/
theorem run_depth (cfg : Config) (tail : List Op) :
    ∀ (pre : List Op) (d : Nat) (m : Machine),
      balanced d (pre ++ tail) = true → d ≤ m.2.length →
      ∃ d', balanced d' tail = true ∧ (run cfg m pre).2.length + d = m.2.length + d' := by
  intro pre
  induction pre with
  | nil => intro d m hb _; exact ⟨d, hb, rfl⟩
  | cons op pre ih =>
    intro d m hb hd
    obtain ⟨s, stk⟩ := m
    cases op with
    | construct nm =>
      obtain ⟨d', h1, h2⟩ := ih (d + 1) (step cfg (s, stk) (Op.construct nm))
        (by simpa [balanced] using hb) (by simpa [step] using hd)
      refine ⟨d', h1, ?_⟩
      simp only [step, List.length_cons] at h2
      simp only [run, step]
      omega
    | destroy k =>
      cases d with
      | zero => simp [balanced] at hb
      | succ d =>
        cases k with
        | succ k => simp [balanced] at hb
        | zero =>
          cases stk with
          | nil => simp at hd
          | cons self rest =>
            obtain ⟨d', h1, h2⟩ := ih d (step cfg (s, self :: rest) (Op.destroy 0))
              (by simpa [balanced] using hb) (by simpa [step] using hd)
            refine ⟨d', h1, ?_⟩
            simp only [step, List.get?_cons_zero, List.eraseIdx_cons_zero] at h2
            simp only [run, step, List.get?_cons_zero, List.eraseIdx_cons_zero, List.length_cons]
            omega

/-- With the fast backend, region scopes hold the global scope exactly while
one of them is live. -/
theorem run_level_fast (cfg : Config) (h : cfg.fast = true) (base : Int) :
    ∀ (ops : List Op) (d : Nat) (m : Machine),
      d ≤ m.2.length → lifo d ops = true → OpenInv m →
      m.1.code_space_write_nesting_level_ = base + (if m.2 = [] then 0 else 1) →
      (run cfg m ops).1.code_space_write_nesting_level_
        = base + (if (run cfg m ops).2 = [] then 0 else 1) := by
  intro ops
  induction ops with
  | nil => intro d m _ _ _ hl; exact hl
  | cons op ops ih =>
    intro d m hd hlifo hinv hl
    have hinv1 : OpenInv (step cfg m op) := by
      have hone : lifo d [op] = true := by
        cases op with
        | construct nm => simp [lifo]
        | destroy k =>
          cases d with
          | zero => simp [lifo] at hlifo
          | succ d =>
            cases k with
            | succ k => simp [lifo] at hlifo
            | zero => simp [lifo]
      exact run_openInv cfg [op] d m hd hone hinv
    obtain ⟨s, stk⟩ := m
    cases op with
    | construct nm =>
      refine ih (d + 1) _ (by simpa [step] using hd) (by simpa [lifo] using hlifo) hinv1 ?_
      simp only [step, (ctor_fast cfg h s nm).2]
      simp only at hl
      rw [hl]
      by_cases he : stk = []
      · have : s.current_native_module = NativeModulePtr.nullptr := hinv.1.2 he
        simp [he, this]
      · have : ¬ s.current_native_module = NativeModulePtr.nullptr := fun e => he (hinv.1.1 e)
        simp [he, this]
    | destroy k =>
      cases d with
      | zero => simp [lifo] at hlifo
      | succ d =>
        cases k with
        | succ k => simp [lifo] at hlifo
        | zero =>
          cases stk with
          | nil => simp at hd
          | cons self rest =>
            refine ih d _ (by simpa [step] using hd) (by simpa [lifo] using hlifo) hinv1 ?_
            simp only [step, List.get?_cons_zero, List.eraseIdx_cons_zero, (dtor_fast cfg h s self).2]
            simp only at hl
            rw [hl]
            have hcur : s.current_native_module ≠ NativeModulePtr.nullptr :=
              fun e => by simpa using hinv.1.1 e
            have hs : StackOk (self :: rest) := hinv.2
            by_cases he : rest = []
            · have : self.previous_native_module_ = NativeModulePtr.nullptr := hs.1.2 he
              simp [he, this, hcur]
            · have : ¬ self.previous_native_module_ = NativeModulePtr.nullptr :=
                fun e => he (hs.1.1 e)
              simp [he, this]

/-- C13: with the fast backend (the pthread build, or memory protection keys
enabled). A constructor calls `RwxMemoryWriteScope::SetWritable` exactly when
the captured previous region is null, and then once; a destructor calls
`RwxMemoryWriteScope::SetExecutable` exactly when its captured previous region
is null and differs from the current region, and then once. On a thread that
starts with no scope open, at every point of a well-nested sequence the next
event calls `SetWritable` exactly when it constructs an outermost scope (no
scope is live) and `SetExecutable` exactly when it destroys the outermost
scope (the only live scope); all other constructions and destructions, for
the same or for a different region, make no call of the global scope. The
nesting counter is then its initial value plus 1 while some region scope is
live and its initial value otherwise. -/
theorem C13_fast_backend_outermost_only (cfg : Config) (hfast : cfg.fast = true) :
    (∀ (s : ThreadState) (nm : Option Nat),
      rwxScopeCalls (CodeSpaceWriteScope.ctor cfg s nm).1.trace
        = rwxScopeCalls s.trace
          ++ (if s.current_native_module = NativeModulePtr.nullptr then [Call.RwxSetWritable]
              else []))
    ∧ (∀ (s : ThreadState) (self : CodeSpaceWriteScope),
      rwxScopeCalls (CodeSpaceWriteScope.dtor cfg s self).trace
        = rwxScopeCalls s.trace
          ++ (if self.previous_native_module_ = NativeModulePtr.nullptr
                ∧ s.current_native_module ≠ NativeModulePtr.nullptr then [Call.RwxSetExecutable]
              else []))
    ∧ (∀ (s : ThreadState) (pre : List Op) (op : Op) (rest : List Op),
        s.current_native_module = NativeModulePtr.nullptr → WellNested (pre ++ op :: rest) →
        rwxScopeCalls (step cfg (run cfg (s, []) pre) op).1.trace
          = rwxScopeCalls (run cfg (s, []) pre).1.trace
            ++ (match op with
                | Op.construct _ =>
                  if (run cfg (s, []) pre).2 = [] then [Call.RwxSetWritable] else []
                | Op.destroy _ =>
                  if (run cfg (s, []) pre).2.length = 1 then [Call.RwxSetExecutable] else []))
    ∧ (∀ (s : ThreadState) (pre rest : List Op),
        s.current_native_module = NativeModulePtr.nullptr → WellNested (pre ++ rest) →
        (run cfg (s, []) pre).1.code_space_write_nesting_level_
          = s.code_space_write_nesting_level_
            + (if (run cfg (s, []) pre).2 = [] then 0 else 1)) := by
  refine ⟨fun s nm => (ctor_fast cfg hfast s nm).1, fun s self => (dtor_fast cfg hfast s self).1,
    ?_, ?_⟩
  · intro s pre op rest hs hw
    have hl := lifo_of_balanced_append (op :: rest) pre 0 hw
    have hinv := run_openInv cfg pre 0 (s, []) (Nat.zero_le _) hl ⟨by simp [hs], trivial⟩
    obtain ⟨d', hb', hlen⟩ := run_depth cfg (op :: rest) pre 0 (s, []) hw (Nat.zero_le _)
    generalize run cfg (s, []) pre = m at hinv hlen ⊢
    obtain ⟨t, stk⟩ := m
    cases op with
    | construct nm =>
      simp only [step, (ctor_fast cfg hfast t nm).1]
      by_cases he : stk = []
      · have : t.current_native_module = NativeModulePtr.nullptr := hinv.1.2 he
        simp [he, this]
      · have : ¬ t.current_native_module = NativeModulePtr.nullptr := fun e => he (hinv.1.1 e)
        simp [he, this]
    | destroy k =>
      cases d' with
      | zero => simp [balanced] at hb'
      | succ d' =>
        cases k with
        | succ k => simp [balanced] at hb'
        | zero =>
          cases stk with
          | nil => simp at hlen
          | cons self tl =>
            simp only [step, List.get?_cons_zero, List.eraseIdx_cons_zero,
              (dtor_fast cfg hfast t self).1]
            have hcur : t.current_native_module ≠ NativeModulePtr.nullptr :=
              fun e => by simpa using hinv.1.1 e
            have hs2 : StackOk (self :: tl) := hinv.2
            by_cases he : tl = []
            · have : self.previous_native_module_ = NativeModulePtr.nullptr := hs2.1.2 he
              simp [he, this, hcur]
            · have : ¬ self.previous_native_module_ = NativeModulePtr.nullptr :=
                fun e => he (hs2.1.1 e)
              simp [he, this]
  · intro s pre rest hs hw
    have hl := lifo_of_balanced_append rest pre 0 hw
    exact run_level_fast cfg hfast s.code_space_write_nesting_level_ pre 0 (s, [])
      (Nat.zero_le _) hl ⟨by simp [hs], trivial⟩ (by simp)

/-- In the pthread build: open a scope for region 1, a scope for region 2 and
a scope for region 2 again inside it, then close all three. The global scope
is entered once, by the first construction, and left once, by the last
destruction; the nesting counter is 1 in between. -/
theorem C13_fast_backend_outermost_only_witness :
    pthreadConfig.fast = true
    ∧ (ThreadState.initial (fun _ => 0)).current_native_module = NativeModulePtr.nullptr
    ∧ WellNested ([Op.construct (some 1), Op.construct (some 2), Op.construct (some 2)]
        ++ [Op.destroy 0, Op.destroy 0, Op.destroy 0])
    ∧ (run pthreadConfig (ThreadState.initial (fun _ => 0), [])
        [Op.construct (some 1), Op.construct (some 2),
          Op.construct (some 2)]).1.code_space_write_nesting_level_
        = (ThreadState.initial (fun _ => 0)).code_space_write_nesting_level_
          + (if (run pthreadConfig (ThreadState.initial (fun _ => 0), [])
              [Op.construct (some 1), Op.construct (some 2), Op.construct (some 2)]).2 = []
            then 0 else 1)
    ∧ (run pthreadConfig (ThreadState.initial (fun _ => 0), [])
        [Op.construct (some 1), Op.construct (some 2),
          Op.construct (some 2)]).1.code_space_write_nesting_level_ = 1
    ∧ rwxScopeCalls (run pthreadConfig (ThreadState.initial (fun _ => 0), [])
        [Op.construct (some 1), Op.construct (some 2), Op.construct (some 2),
          Op.destroy 0, Op.destroy 0]).1.trace = [Call.RwxSetWritable]
    ∧ rwxScopeCalls (run pthreadConfig (ThreadState.initial (fun _ => 0), [])
        [Op.construct (some 1), Op.construct (some 2), Op.construct (some 2),
          Op.destroy 0, Op.destroy 0, Op.destroy 0]).1.trace
        = [Call.RwxSetWritable, Call.RwxSetExecutable] :=
  ⟨by decide, rfl, by decide,
    (C13_fast_backend_outermost_only pthreadConfig (by decide)).2.2.2
      (ThreadState.initial (fun _ => 0))
      [Op.construct (some 1), Op.construct (some 2), Op.construct (some 2)]
      [Op.destroy 0, Op.destroy 0, Op.destroy 0] rfl (by decide),
    by decide, by decide, by decide⟩

/-! ## The regions of the live scopes: C14, C15 -/

theorem openArgs_mem :
    ∀ (ops : List Op) (args : List (Option Nat)) (a : Option Nat),
      a ∈ openArgs args ops → a ∈ args ∨ Op.construct a ∈ ops := by
  intro ops
  induction ops with
  | nil => intro args a h; exact Or.inl h
  | cons op ops ih =>
    intro args a h
    cases op with
    | construct nm =>
      rcases ih (nm :: args) a h with h1 | h1
      · rcases List.mem_cons.1 h1 with h2 | h2
        · subst h2; exact Or.inr (List.mem_cons_self _ _)
        · exact Or.inl h2
      · exact Or.inr (List.mem_cons_of_mem _ h1)
    | destroy k =>
      rcases ih (args.eraseIdx k) a h with h1 | h1
      · exact Or.inl (List.mem_of_mem_eraseIdx h1)
      · exact Or.inr (List.mem_cons_of_mem _ h1)

/-- In degraded mode the constructor raises the writer count of its region,
when that is a real region that differs from the current one. -/
theorem ctor_writers_degraded (cfg : Config)
    (hdeg : CodeSpaceWriteScope.SwitchingPerNativeModule cfg = true)
    (s : ThreadState) (nm : Option Nat) (R : Nat) :
    (CodeSpaceWriteScope.ctor cfg s nm).1.writers_count_ R
      = s.writers_count_ R
        + (if rewritten nm = NativeModulePtr.module R
            ∧ s.current_native_module ≠ NativeModulePtr.module R then 1 else 0 : Nat) := by
  cases nm with
  | none =>
    by_cases hc : s.current_native_module = NativeModulePtr.dummy <;>
      simp [CodeSpaceWriteScope.ctor, rewritten, GetDummyNativeModule, hc, hdeg, DCHECK,
        setWritable_degraded, AddWriter]
  | some id =>
    by_cases hc : s.current_native_module = NativeModulePtr.module id
    · by_cases hr : id = R
      · subst hr; simp [CodeSpaceWriteScope.ctor, rewritten, hc]
      · simp [CodeSpaceWriteScope.ctor, rewritten, hc, hr]
    · by_cases hr : id = R
      · subst hr; simp [CodeSpaceWriteScope.ctor, rewritten, hc, hdeg,
          setWritable_degraded, AddWriter]
      · have hr2 : ¬ R = id := fun e => hr e.symm
        simp [CodeSpaceWriteScope.ctor, rewritten, hc, hr, hr2, hdeg,
          setWritable_degraded, AddWriter]

/-- In degraded mode the destructor lowers the writer count of the current
region, when that is a real region that differs from the captured previous
one. -/
theorem dtor_writers_degraded (cfg : Config)
    (hdeg : CodeSpaceWriteScope.SwitchingPerNativeModule cfg = true)
    (s : ThreadState) (self : CodeSpaceWriteScope) (R : Nat) :
    (CodeSpaceWriteScope.dtor cfg s self).writers_count_ R
      = s.writers_count_ R
        - (if s.current_native_module = NativeModulePtr.module R
            ∧ self.previous_native_module_ ≠ NativeModulePtr.module R then 1 else 0 : Nat) := by
  by_cases hc : self.previous_native_module_ = s.current_native_module
  · have : ¬ (s.current_native_module = NativeModulePtr.module R
        ∧ self.previous_native_module_ ≠ NativeModulePtr.module R) := by
      rintro ⟨h1, h2⟩; exact h2 (hc.trans h1)
    simp [CodeSpaceWriteScope.dtor, hc, this]
  · cases hcur : s.current_native_module with
    | nullptr =>
      rw [hcur] at hc
      simp [CodeSpaceWriteScope.dtor, hc, hdeg, setExecutable_degraded, RemoveWriter, hcur]
    | dummy =>
      rw [hcur] at hc
      simp [CodeSpaceWriteScope.dtor, hc, hdeg, setExecutable_degraded, RemoveWriter, hcur]
    | module id =>
      rw [hcur] at hc
      by_cases hr : id = R
      · subst hr
        simp [CodeSpaceWriteScope.dtor, hc, hdeg, setExecutable_degraded, RemoveWriter, hcur]
      · have hr2 : ¬ R = id := fun e => hr e.symm
        simp [CodeSpaceWriteScope.dtor, hc, hdeg, setExecutable_degraded, RemoveWriter, hcur,
          hr, hr2]

/-- Along a strictly LIFO sequence the live scopes stay in agreement with
their arguments. -/
theorem run_chain (cfg : Config) (n : Nat) :
    ∀ (ops : List Op) (args : List (Option Nat)) (m : Machine),
      lifo args.length ops = true → Chain m.1.current_native_module args m.2 →
      m.2.length = args.length + n →
      Chain (run cfg m ops).1.current_native_module (openArgs args ops) (run cfg m ops).2
      ∧ (run cfg m ops).2.length = (openArgs args ops).length + n := by
  intro ops
  induction ops with
  | nil => intro args m _ hc hl; exact ⟨hc, hl⟩
  | cons op ops ih =>
    intro args m hlifo hc hl
    obtain ⟨s, stk⟩ := m
    cases op with
    | construct nm =>
      refine ih (nm :: args) (step cfg (s, stk) (Op.construct nm))
        (by simpa [lifo] using hlifo) ?_ ?_
      · exact ⟨ctor_current cfg s nm, by simpa [step, ctor_previous] using hc⟩
      · simp only [step, List.length_cons]
        simp only at hl
        omega
    | destroy k =>
      cases args with
      | nil => simp [lifo] at hlifo
      | cons a args =>
        cases k with
        | succ k => simp [lifo] at hlifo
        | zero =>
          cases stk with
          | nil => exact absurd hc (by simp [Chain])
          | cons self rest =>
            refine ih args (step cfg (s, self :: rest) (Op.destroy 0))
              (by simpa [lifo] using hlifo) ?_ ?_
            · simpa [step, dtor_current] using hc.2
            · simp only [step, List.get?_cons_zero, List.eraseIdx_cons_zero]
              simp only [List.length_cons] at hl
              omega

/-- In degraded mode, along a strictly LIFO sequence, the excess of every
writer count over its initial value is the number of live scopes for that
region whose captured previous region is another one. -/
theorem run_excess (cfg : Config)
    (hdeg : CodeSpaceWriteScope.SwitchingPerNativeModule cfg = true) (w0 : Nat → Int) :
    ∀ (ops : List Op) (args : List (Option Nat)) (m : Machine),
      lifo args.length ops = true → Chain m.1.current_native_module args m.2 →
      (∀ R, m.1.writers_count_ R = w0 R + excess R args m.2) →
      ∀ R, (run cfg m ops).1.writers_count_ R
        = w0 R + excess R (openArgs args ops) (run cfg m ops).2 := by
  intro ops
  induction ops with
  | nil => intro args m _ _ hw; exact hw
  | cons op ops ih =>
    intro args m hlifo hc hw
    obtain ⟨s, stk⟩ := m
    cases op with
    | construct nm =>
      refine ih (nm :: args) (step cfg (s, stk) (Op.construct nm))
        (by simpa [lifo] using hlifo) ?_ ?_
      · exact ⟨ctor_current cfg s nm, by simpa [step, ctor_previous] using hc⟩
      · intro R
        simp only [step, ctor_writers_degraded cfg hdeg, excess, ctor_previous]
        rw [hw R]
        push_cast
        ring
    | destroy k =>
      cases args with
      | nil => simp [lifo] at hlifo
      | cons a args =>
        cases k with
        | succ k => simp [lifo] at hlifo
        | zero =>
          cases stk with
          | nil => exact absurd hc (by simp [Chain])
          | cons self rest =>
            refine ih args (step cfg (s, self :: rest) (Op.destroy 0))
              (by simpa [lifo] using hlifo) ?_ ?_
            · simpa [step, dtor_current] using hc.2
            · intro R
              have hcur : s.current_native_module = rewritten a := hc.1
              simp only [step, List.get?_cons_zero, List.eraseIdx_cons_zero,
                dtor_writers_degraded cfg hdeg]
              rw [hw R, hcur]
              simp only [excess]
              push_cast
              ring

/-- The current region of a thread with a live scope has at least one live
scope that has captured another region. -/
theorem excess_pos (R : Nat) :
    ∀ (stk : List CodeSpaceWriteScope) (args : List (Option Nat)) (cur : NativeModulePtr),
      Chain cur args stk → StackOk stk → args.length = stk.length → stk ≠ [] →
      cur = NativeModulePtr.module R → 1 ≤ excess R args stk := by
  intro stk
  induction stk with
  | nil => intro args cur _ _ _ h; exact absurd rfl h
  | cons self rest ih =>
    intro args cur hc hs hl _ hcur
    cases args with
    | nil => simp at hl
    | cons a args =>
      obtain ⟨h1, h2⟩ := hc
      by_cases hp : self.previous_native_module_ = NativeModulePtr.module R
      · have hne : rest ≠ [] := by
          intro e
          have := hs.1.2 e
          rw [hp] at this
          cases this
        have := ih args self.previous_native_module_ h2 hs.2 (by simpa using hl) hne hp
        simp only [excess]
        omega
      · have : rewritten a = NativeModulePtr.module R := by rw [← h1, hcur]
        simp [excess, this, hp]

/-! ## C14 -/

/-- C14: in degraded mode (`SwitchingPerNativeModule()` is true), on a thread
that starts with no scope open and writer counts `s.writers_count_`, at every
point of a well-nested sequence of scopes with non-null regions (after every
beginning `pre` of it): the live scope objects correspond one to one to the
constructor arguments still open; for every region `R` the writer count of
`R` exceeds its initial value by the number of live scopes for `R` whose
captured previous region is not `R`; and whenever a scope is live the current
region is a real region whose writer count is at least one above its initial
value. -/
theorem C14_degraded_refcount_invariant (cfg : Config)
    (hdeg : CodeSpaceWriteScope.SwitchingPerNativeModule cfg = true)
    (s : ThreadState) (pre rest : List Op)
    (hs : s.current_native_module = NativeModulePtr.nullptr)
    (hw : WellNested (pre ++ rest)) (hnn : Op.construct none ∉ pre) :
    (openArgs [] pre).length = (run cfg (s, []) pre).2.length
    ∧ (∀ R, (run cfg (s, []) pre).1.writers_count_ R
        = s.writers_count_ R + excess R (openArgs [] pre) (run cfg (s, []) pre).2)
    ∧ ((run cfg (s, []) pre).2 ≠ [] →
        ∃ R, (run cfg (s, []) pre).1.current_native_module = NativeModulePtr.module R
          ∧ s.writers_count_ R + 1 ≤ (run cfg (s, []) pre).1.writers_count_ R) := by
  have hl := lifo_of_balanced_append rest pre 0 hw
  obtain ⟨hchain, hlen⟩ := run_chain cfg 0 pre [] (s, []) hl trivial rfl
  have hex := run_excess cfg hdeg s.writers_count_ pre [] (s, []) hl trivial
    (fun R => by simp [excess])
  have hinv := run_openInv cfg pre 0 (s, []) (Nat.zero_le _) hl ⟨by simp [hs], trivial⟩
  have hlen' : (openArgs [] pre).length = (run cfg (s, []) pre).2.length := by omega
  refine ⟨hlen', hex, ?_⟩
  intro hne
  have hmem := openArgs_mem pre []
  generalize run cfg (s, []) pre = m at hchain hlen' hex hinv hne ⊢
  generalize openArgs [] pre = args at hchain hlen' hex hmem ⊢
  obtain ⟨t, stk⟩ := m
  cases stk with
  | nil => exact absurd rfl hne
  | cons self tl =>
    cases args with
    | nil => simp at hlen'
    | cons a args =>
      have hcur : t.current_native_module = rewritten a := hchain.1
      cases a with
      | none =>
        rcases hmem none (List.mem_cons_self _ _) with h | h
        · cases h
        · exact absurd h hnn
      | some R =>
        refine ⟨R, hcur, ?_⟩
        have hpos := excess_pos R (self :: tl) (some R :: args) t.current_native_module
          hchain hinv.2 hlen' hne hcur
        have := hex R
        simp only at this
        rw [this]
        have hcast : (1 : Int) ≤ (excess R (some R :: args) (self :: tl) : Int) := by
          exact_mod_cast hpos
        omega

/-- In degraded mode: scopes for region 1, region 2 and region 2 again, nested.
Both counts stand at 1: the inner scope for region 2 has captured region 2 and
does not count. -/
theorem C14_degraded_refcount_invariant_witness :
    CodeSpaceWriteScope.SwitchingPerNativeModule degradedConfig = true
    ∧ (ThreadState.initial (fun _ => 0)).current_native_module = NativeModulePtr.nullptr
    ∧ WellNested ([Op.construct (some 1), Op.construct (some 2), Op.construct (some 2)]
        ++ [Op.destroy 0, Op.destroy 0, Op.destroy 0])
    ∧ Op.construct none ∉ [Op.construct (some 1), Op.construct (some 2), Op.construct (some 2)]
    ∧ (run degradedConfig (ThreadState.initial (fun _ => 0), [])
        [Op.construct (some 1), Op.construct (some 2), Op.construct (some 2)]).1.writers_count_ 2
        = (ThreadState.initial (fun _ => 0)).writers_count_ 2
          + excess 2 (openArgs [] [Op.construct (some 1), Op.construct (some 2), Op.construct (some 2)])
            (run degradedConfig (ThreadState.initial (fun _ => 0), [])
              [Op.construct (some 1), Op.construct (some 2), Op.construct (some 2)]).2
    ∧ excess 2 (openArgs [] [Op.construct (some 1), Op.construct (some 2), Op.construct (some 2)])
        (run degradedConfig (ThreadState.initial (fun _ => 0), [])
          [Op.construct (some 1), Op.construct (some 2), Op.construct (some 2)]).2 = 1
    ∧ (run degradedConfig (ThreadState.initial (fun _ => 0), [])
        [Op.construct (some 1), Op.construct (some 2), Op.construct (some 2)]).1.writers_count_ 1
        = 1 :=
  ⟨by decide, rfl, by decide, by decide,
    (C14_degraded_refcount_invariant degradedConfig (by decide) (ThreadState.initial (fun _ => 0))
      [Op.construct (some 1), Op.construct (some 2), Op.construct (some 2)]
      [Op.destroy 0, Op.destroy 0, Op.destroy 0] rfl (by decide) (by decide)).2.1 2,
    by decide, by decide⟩

/-! ## C15 -/

/-- Every writer call of the constructor is `AddWriter` in degraded mode, on
the rewritten argument. -/
theorem ctorCalls_writer (cfg : Config) (s : ThreadState) (nm : Option Nat) :
    ∀ c ∈ ctorCalls cfg s nm, ∀ p, (c = Call.AddWriter p ∨ c = Call.RemoveWriter p) →
      CodeSpaceWriteScope.SwitchingPerNativeModule cfg = true ∧ p = rewritten nm := by
  obtain ⟨pt, k, m, f, u⟩ := cfg
  intro c hc p hp
  unfold ctorCalls at hc
  by_cases h0 : s.code_space_write_nesting_level_ = 0 <;>
    cases pt <;> cases k <;> cases f <;>
    split_ifs at hc <;>
    rcases hp with hp | hp <;> subst hp <;>
    simp_all [enterCalls, Config.fast, CodeSpaceWriteScope.SwitchingPerNativeModule]

/-- Every writer call of the destructor is `RemoveWriter` in degraded mode, on
the current region. -/
theorem dtorCalls_writer (cfg : Config) (s : ThreadState) (self : CodeSpaceWriteScope) :
    ∀ c ∈ dtorCalls cfg s self, ∀ p, (c = Call.AddWriter p ∨ c = Call.RemoveWriter p) →
      CodeSpaceWriteScope.SwitchingPerNativeModule cfg = true ∧ p = s.current_native_module := by
  obtain ⟨pt, k, m, f, u⟩ := cfg
  intro c hc p hp
  unfold dtorCalls at hc
  by_cases h1 : s.code_space_write_nesting_level_ = 1 <;>
    cases pt <;> cases k <;> cases f <;>
    split_ifs at hc <;>
    rcases hp with hp | hp <;> subst hp <;>
    simp_all [leaveCalls, Config.fast, CodeSpaceWriteScope.SwitchingPerNativeModule]

/-- Along a strictly LIFO sequence whose null arguments come only without
switching per module, every writer call is made on a real region that was
handed to a constructor. -/
theorem run_writer_calls (cfg : Config) (A : List Op)
    (hnull : Op.construct none ∈ A → CodeSpaceWriteScope.SwitchingPerNativeModule cfg = false) :
    ∀ (ops : List Op) (args : List (Option Nat)) (m : Machine),
      lifo args.length ops = true → Chain m.1.current_native_module args m.2 →
      (∀ a ∈ args, Op.construct a ∈ A) → (∀ op ∈ ops, op ∈ A) →
      ∃ calls, (run cfg m ops).1.trace = m.1.trace ++ calls
        ∧ ∀ c ∈ calls, ∀ p, (c = Call.AddWriter p ∨ c = Call.RemoveWriter p) →
            ∃ id, p = NativeModulePtr.module id ∧ Op.construct (some id) ∈ A := by
  have real : ∀ a : Option Nat, Op.construct a ∈ A →
      CodeSpaceWriteScope.SwitchingPerNativeModule cfg = true →
      ∃ id, rewritten a = NativeModulePtr.module id ∧ Op.construct (some id) ∈ A := by
    intro a ha hsw
    cases a with
    | none => rw [hnull ha] at hsw; cases hsw
    | some id => exact ⟨id, rfl, ha⟩
  intro ops
  induction ops with
  | nil => intro args m _ _ _ _; exact ⟨[], by simp [run], by simp⟩
  | cons op ops ih =>
    intro args m hlifo hc hargs hops
    obtain ⟨s, stk⟩ := m
    have hop : op ∈ A := hops op (List.mem_cons_self _ _)
    have hops' : ∀ o ∈ ops, o ∈ A := fun o ho => hops o (List.mem_cons_of_mem _ ho)
    cases op with
    | construct nm =>
      obtain ⟨calls, h1, h2⟩ := ih (nm :: args) (step cfg (s, stk) (Op.construct nm))
        (by simpa [lifo] using hlifo)
        ⟨ctor_current cfg s nm, by simpa [step, ctor_previous] using hc⟩
        (by
          intro a ha
          rcases List.mem_cons.1 ha with e | e
          · subst e; exact hop
          · exact hargs a e)
        hops'
      refine ⟨ctorCalls cfg s nm ++ calls, ?_, ?_⟩
      · show (run cfg (step cfg (s, stk) (Op.construct nm)) ops).1.trace = _
        rw [h1]
        simp [step, ctor_trace]
      · intro c hcm p hp
        rcases List.mem_append.1 hcm with e | e
        · obtain ⟨hsw, hpe⟩ := ctorCalls_writer cfg s nm c e p hp
          rw [hpe]
          exact real nm hop hsw
        · exact h2 c e p hp
    | destroy k =>
      cases args with
      | nil => simp [lifo] at hlifo
      | cons a args =>
        cases k with
        | succ k => simp [lifo] at hlifo
        | zero =>
          cases stk with
          | nil => exact absurd hc (by simp [Chain])
          | cons self rest =>
            obtain ⟨calls, h1, h2⟩ := ih args (step cfg (s, self :: rest) (Op.destroy 0))
              (by simpa [lifo] using hlifo) (by simpa [step, dtor_current] using hc.2)
              (fun b hb => hargs b (List.mem_cons_of_mem _ hb)) hops'
            refine ⟨dtorCalls cfg s self ++ calls, ?_, ?_⟩
            · show (run cfg (step cfg (s, self :: rest) (Op.destroy 0)) ops).1.trace = _
              rw [h1]
              simp [step, dtor_trace]
            · intro c hcm p hp
              rcases List.mem_append.1 hcm with e | e
              · obtain ⟨hsw, hpe⟩ := dtorCalls_writer cfg s self c e p hp
                have hcur : s.current_native_module = rewritten a := hc.1
                rw [hpe, hcur]
                exact real a (hargs a (List.mem_cons_self _ _)) hsw
              · exact h2 c e p hp

/-- C15: for every configuration, every thread state, whatever scopes are
already live, and every well-nested sequence that passes a null region only
when `SwitchingPerNativeModule()` is false, at every point of the sequence
(after every beginning `pre` of it) every `AddWriter` and every `RemoveWriter`
call made so far was made on a real region that a constructor of the sequence
was handed. The pointer of such a call is the thread-local current region at
the moment of the call, so that region is then neither null nor the dummy
sentinel. -/
theorem C15_writer_calls_target_real_regions (cfg : Config) (s : ThreadState)
    (stk : List CodeSpaceWriteScope) (pre rest : List Op) (hw : WellNested (pre ++ rest))
    (hnull : Op.construct none ∈ pre → CodeSpaceWriteScope.SwitchingPerNativeModule cfg = false) :
    ∃ calls, (run cfg (s, stk) pre).1.trace = s.trace ++ calls
      ∧ ∀ c ∈ calls, ∀ p, (c = Call.AddWriter p ∨ c = Call.RemoveWriter p) →
          (∃ id, p = NativeModulePtr.module id ∧ Op.construct (some id) ∈ pre)
          ∧ p ≠ NativeModulePtr.nullptr ∧ p ≠ GetDummyNativeModule := by
  have hl := lifo_of_balanced_append rest pre 0 hw
  obtain ⟨calls, h1, h2⟩ := run_writer_calls cfg pre hnull pre [] (s, stk) hl trivial
    (by simp) (fun op h => h)
  refine ⟨calls, h1, ?_⟩
  intro c hc p hp
  obtain ⟨id, hid, hmem⟩ := h2 c hc p hp
  refine ⟨⟨id, hid, hmem⟩, ?_, ?_⟩ <;> rw [hid] <;> simp [GetDummyNativeModule]

/-- In degraded mode: scopes for regions 1 and 2, nested, then closed. All
four writer calls are on regions 1 and 2; none is on the dummy sentinel or on
the null pointer. -/
theorem C15_writer_calls_target_real_regions_witness :
    WellNested ([Op.construct (some 1), Op.construct (some 2), Op.destroy 0, Op.destroy 0] ++ [])
    ∧ Op.construct none ∉ [Op.construct (some 1), Op.construct (some 2), Op.destroy 0, Op.destroy 0]
    ∧ Call.AddWriter GetDummyNativeModule
        ∉ (run degradedConfig (ThreadState.initial (fun _ => 0), [])
          [Op.construct (some 1), Op.construct (some 2), Op.destroy 0, Op.destroy 0]).1.trace
    ∧ Call.RemoveWriter NativeModulePtr.nullptr
        ∉ (run degradedConfig (ThreadState.initial (fun _ => 0), [])
          [Op.construct (some 1), Op.construct (some 2), Op.destroy 0, Op.destroy 0]).1.trace
    ∧ (run degradedConfig (ThreadState.initial (fun _ => 0), [])
        [Op.construct (some 1), Op.construct (some 2), Op.destroy 0, Op.destroy 0]).1.trace
        = [Call.SetCurrent (NativeModulePtr.module 1), Call.AddWriter (NativeModulePtr.module 1),
            Call.SetCurrent (NativeModulePtr.module 2), Call.AddWriter (NativeModulePtr.module 2),
            Call.RemoveWriter (NativeModulePtr.module 2), Call.SetCurrent (NativeModulePtr.module 1),
            Call.RemoveWriter (NativeModulePtr.module 1), Call.SetCurrent NativeModulePtr.nullptr] := by
  obtain ⟨calls, h1, h2⟩ :=
    C15_writer_calls_target_real_regions degradedConfig (ThreadState.initial (fun _ => 0)) []
      [Op.construct (some 1), Op.construct (some 2), Op.destroy 0, Op.destroy 0] []
      (by decide) (fun h => absurd h (by decide))
  have h3 : (ThreadState.initial (fun _ => 0)).trace ++ calls = calls := rfl
  rw [h3] at h1
  refine ⟨by decide, by decide, ?_, ?_, by decide⟩
  · intro hmem
    rw [h1] at hmem
    exact (h2 _ hmem _ (Or.inl rfl)).2.2 rfl
  · intro hmem
    rw [h1] at hmem
    exact (h2 _ hmem _ (Or.inr rfl)).2.1 rfl

end V8
